import Mathlib

/-!
# PriceOrders matching core: shallow embedding

This file embeds the matching core of the PriceOrders repository
(`backend/utils/normalizers.py`, `backend/services/matching.py`,
`backend/services/matching_strategies/hybrid.py`,
`backend/utils/matching_helpers.py`) into Lean 4 and settles the claims of
the specification against it.

Strings are modelled as Lean `String` / `List Char`.  Python's `str.lower` /
`str.upper` and the regex classes `\w`, `\s` are modelled on the character
domain the catalogue actually uses (ASCII plus the Russian Cyrillic block);
`unicodedata.normalize("NFKC", ·)` is the identity on this domain and is
modelled as such.  Floats are modelled by `ℚ` (all arithmetic in the source
is exact decimal arithmetic on small values).

A few helper functions used by the matching code are imported in the
repository from modules that do not exist in the source tree
(`extract_thread_size`, `is_coupling_detachable`, `is_reducer`,
`extract_color`, `backend/constants.py`); these are modelled from the
specification and are marked `Modelled from the spec:` in their doc string.
-/

namespace PriceOrders

/-! ## Python character primitives -/

/-- Python regex `\w` (word character) on the ASCII + Cyrillic domain:
ASCII letters and digits, underscore, and the Russian Cyrillic letters
А..Я, а..я, Ё, ё. -/
def isPyWordChar (c : Char) : Bool :=
  c.isAlphanum || c = '_' ||
  (1040 ≤ c.toNat && c.toNat ≤ 1103) || c.toNat = 1025 || c.toNat = 1105

/-- Python regex `\s` / `str.split()` whitespace (ASCII part). -/
def isPySpace (c : Char) : Bool :=
  c = ' ' || c = '\t' || c = '\n' || c = '\r' ||
  c.toNat = 11 || c.toNat = 12

/-- Python `str.lower` on the ASCII + Cyrillic domain
(65..90 = A..Z, 1040..1071 = А..Я, 1025 = Ё, 1105 = ё). -/
def pyLowerChar (c : Char) : Char :=
  if 65 ≤ c.toNat ∧ c.toNat ≤ 90 then Char.ofNat (c.toNat + 32)
  else if 1040 ≤ c.toNat ∧ c.toNat ≤ 1071 then Char.ofNat (c.toNat + 32)
  else if c.toNat = 1025 then Char.ofNat 1105
  else c

/-- Python `str.upper` on the ASCII + Cyrillic domain
(97..122 = a..z, 1072..1103 = а..я). -/
def pyUpperChar (c : Char) : Char :=
  if 97 ≤ c.toNat ∧ c.toNat ≤ 122 then Char.ofNat (c.toNat - 32)
  else if 1072 ≤ c.toNat ∧ c.toNat ≤ 1103 then Char.ofNat (c.toNat - 32)
  else if c.toNat = 1105 then Char.ofNat 1025
  else c

def pyLower (s : String) : String := String.mk (s.data.map pyLowerChar)

/-! ## `normalize_sku` (backend/utils/normalizers.py, lines 74-84)

```python
def normalize_sku(sku: str) -> str:
    if not sku:
        return ""
    result = sku.upper()
    result = re.sub(r'[\s\-\.\/_]+', '', result)
    result = result.lstrip('0') or '0'
    return result
```
-/

/-- Characters removed by `re.sub(r'[\s\-\.\/_]+', '', ...)`. -/
def isSkuSep (c : Char) : Bool :=
  isPySpace c || c = '-' || c = '.' || c = '/' || c = '_'

/-- `result.lstrip('0') or '0'` as a list operation. -/
def lstripZeros (l : List Char) : List Char :=
  match l.dropWhile (fun c => c = '0') with
  | [] => ['0']
  | r => r

def normalize_sku (sku : String) : String :=
  if sku = "" then ""
  else
    String.mk (lstripZeros ((sku.data.map pyUpperChar).filter (fun c => !isSkuSep c)))

/-! ## Levenshtein / Indel similarity

`matching.py` uses `fuzzywuzzy.fuzz` (backed by python-Levenshtein:
similarity `= round(100 * (len1+len2-dist)/(len1+len2))` with the indel
distance, equivalently `round(200*LCS/(len1+len2))`), `hybrid.py` uses
`rapidfuzz.fuzz` (same formula, unrounded float).  Both are modelled from
the length of a longest common subsequence. -/

/-- One row update of the standard LCS dynamic program.
`prev` is the previous row (length `|b| + 1`), `newPrev` the entry of the
new row just computed to the left. -/
def lcsNextRow (ca : Char) : List Char → List Nat → Nat → List Nat
  | [], _, _ => []
  | _ :: _, [], _ => []
  | cb :: bs, pj :: prest, newPrev =>
    let up := match prest with | q :: _ => q | [] => 0
    let v := if ca = cb then pj + 1 else max newPrev up
    v :: lcsNextRow ca bs prest v

/-- Length of a longest common subsequence of two character lists. -/
def lcsLen (a b : List Char) : Nat :=
  let row0 := List.replicate (b.length + 1) 0
  let last := a.foldl (fun row ca => 0 :: lcsNextRow ca b row 0) row0
  last.getLastD 0

/-- Python `int(round(p/q))` (round half to even) on natural numbers,
`q > 0`. -/
def roundHalfEven (p q : ℕ) : ℕ :=
  let d := p / q
  let r := p % q
  if 2 * r < q then d
  else if q < 2 * r then d + 1
  else if d % 2 = 0 then d else d + 1

/-- Rational helpers routed through `mkRat` so that the kernel can
evaluate them (the `Rat` ring operations do not reduce definitionally;
`mkRat`, the field projections and the order do). -/
def qAdd (a b : ℚ) : ℚ := mkRat (a.num * b.den + b.num * a.den) (a.den * b.den)

def qMul (a b : ℚ) : ℚ := mkRat (a.num * b.num) (a.den * b.den)

/-- Division of a rational by a natural number. -/
def qDivNat (a : ℚ) (n : ℕ) : ℚ := mkRat a.num (a.den * n)

/-- Exact indel similarity in `[0,100]` (rapidfuzz `fuzz.ratio`). -/
def simQ (a b : List Char) : ℚ :=
  if a.length + b.length = 0 then 100
  else mkRat (200 * lcsLen a b) (a.length + b.length)

/-- fuzzywuzzy `fuzz.ratio`: the rounded integer similarity
`int(round(100 * 2*lcs/(len1+len2)))`. -/
def simInt (a b : List Char) : ℕ :=
  if a.length + b.length = 0 then 100
  else roundHalfEven (200 * lcsLen a b) (a.length + b.length)

/-! ## A small regex-substitution engine

Each `re.sub` call of the source is translated via `gsub`, which scans left
to right applying a matcher at every position (Python `re.sub` semantics:
non-overlapping matches, replacement text is not rescanned).  The matcher
receives the word-boundary information of the current position (whether the
previous character is absent or a non-word character, which decides `\b`
before a word character) and returns the replacement, the rest of the input
and the boundary state after the match. -/

def gsub (m : Bool → List Char → Option (List Char × List Char × Bool)) :
    Nat → Bool → List Char → List Char
  | 0, _, s => s
  | _ + 1, _, [] => []
  | n + 1, bnd, c :: cs =>
    match m bnd (c :: cs) with
    | some (rep, rest, b2) => rep ++ gsub m n b2 rest
    | none => c :: gsub m n (!isPyWordChar c) cs

/-- Run `gsub` with enough fuel (every match consumes ≥ 1 character). -/
def reSub (m : Bool → List Char → Option (List Char × List Char × Bool))
    (s : List Char) : List Char :=
  gsub m s.length true s

/-- `\b` right after a word character: end of input or a non-word follows. -/
def boundAfterWord (s : List Char) : Bool :=
  match s with
  | [] => true
  | c :: _ => !isPyWordChar c

/-- The next character exists and is a word character. -/
def wordStart (s : List Char) : Bool :=
  match s with
  | [] => false
  | c :: _ => isPyWordChar c

/-- Consume a literal. -/
def dropLit (lit s : List Char) : Option (List Char) :=
  if lit.isPrefixOf s then some (s.drop lit.length) else none

/-- Consume `\s+`. -/
def dropWs1 (s : List Char) : Option (List Char) :=
  match s with
  | c :: cs => if isPySpace c then some (cs.dropWhile isPySpace) else none
  | [] => none

/-- Consume `\d+` (greedy), returning the digits and the rest. -/
def spanDigits (s : List Char) : List Char × List Char :=
  (s.takeWhile Char.isDigit, s.dropWhile Char.isDigit)

/-- Consume `\d+`, requiring at least one digit. -/
def dropDigits1 (s : List Char) : Option (List Char × List Char) :=
  let (ds, rest) := spanDigits s
  if ds.isEmpty then none else some (ds, rest)

/-- Consume an optional literal dot. -/
def dropOptDot (s : List Char) : List Char :=
  match s with
  | '.' :: cs => cs
  | s => s

/-- Matcher for `\bKEY\b` (with an optional trailing `\.?` when `optDot`),
with replacement `rep`; every key used starts and ends in a word
character.  A trailing dot is part of the match only when a word character
follows it (otherwise `\b` fails after the dot and the regex backtracks to
the dot-less alternative). -/
def mWordKey (key rep : List Char) (optDot : Bool) (bnd : Bool) (s : List Char) :
    Option (List Char × List Char × Bool) :=
  if bnd && key.isPrefixOf s then
    let rest := s.drop key.length
    if optDot && rest.head? = some '.' && wordStart (rest.drop 1) then
      some (rep, rest.drop 1, true)
    else if boundAfterWord rest then
      some (rep, rest, false)
    else none
  else none

def subWordKey (key rep : String) (optDot : Bool) (s : List Char) : List Char :=
  reSub (mWordKey key.data rep.data optDot) s

/-! ## `expand_synonyms` (backend/utils/normalizers.py, lines 61-71) -/

def MATERIAL_SYNONYMS : List (String × String) :=
  [("пп", "полипропилен"), ("pp", "полипропилен"),
   ("пэ", "полиэтилен"), ("pe", "полиэтилен"),
   ("пвх", "поливинилхлорид"), ("pvc", "поливинилхлорид"),
   ("ппр", "полипропилен"), ("ppr", "полипропилен"),
   ("pert", "полиэтилен"), ("pe-rt", "полиэтилен")]

/-- `PRODUCT_SYNONYMS` already listed in the order produced by
`sorted(items, key=len(key), reverse=True)` — Python's sort is stable, so
dictionary insertion order is kept inside every length class. -/
def PRODUCT_SYNONYMS_SORTED : List (String × String) :=
  [("угольник", "отвод"), ("coupling", "муфта"), ("заглушка", "заглушка"),
   ("тройник", "тройник"), ("нар кан", "наружная канализация"),
   ("нар.кан", "наружная канализация"), ("малошум", "малошумная"),
   ("нар рез", "наружная резьба"), ("нар.рез", "наружная резьба"),
   ("колено", "отвод"), ("вн рез", "внутренняя резьба"),
   ("вн.рез", "внутренняя резьба"),
   ("elbow", "отвод"), ("муфта", "муфта"),
   ("угол", "отвод"), ("plug", "заглушка"),
   ("tee", "тройник"), ("cap", "заглушка"), ("кан", "канализационн"),
   ("в р", "внутренняя резьба"), ("в/р", "внутренняя резьба"),
   ("н р", "наружная резьба"), ("н/р", "наружная резьба")]

/-- Material synonyms are substituted with `\bKEY\b`, product synonyms with
`\bKEY\.?\b`, longest key first. -/
def expand_synonyms (text : String) : String :=
  let l0 := text.data.map pyLowerChar
  let l1 := MATERIAL_SYNONYMS.foldl
    (fun s kv => reSub (mWordKey kv.1.data kv.2.data false) s) l0
  let l2 := PRODUCT_SYNONYMS_SORTED.foldl
    (fun s kv => reSub (mWordKey kv.1.data kv.2.data true) s) l1
  String.mk l2

/-! ## `normalize_name` (backend/utils/normalizers.py, lines 86-139) -/

/-- mm → inch table for clamps (`PIPE_MM_TO_INCH`). -/
def PIPE_MM_TO_INCH : List (Nat × String) :=
  [(15, "3/8\""), (16, "3/8\""), (19, "3/8\""),
   (20, "1/2\""), (25, "1/2\""),
   (26, "3/4\""), (30, "3/4\""),
   (32, "1\""), (36, "1\""),
   (40, "1 1/4\""), (46, "1 1/4\""),
   (50, "1 1/2\""), (51, "1 1/2\""),
   (63, "2\""), (65, "2\""),
   (75, "2 1/2\""), (78, "2 1/2\""),
   (90, "3\""), (92, "3\""),
   (110, "4\""), (115, "4\""),
   (140, "5\""), (142, "5\""),
   (160, "6\""), (166, "6\"")]

def digitsToNat (ds : List Char) : Nat :=
  ds.foldl (fun n c => 10 * n + (c.toNat - 48)) 0

/-- `re.sub(r'\(уп\.?\s*\d+\s*шт\.?\)', '', ...)`. -/
def mPackUp (_ : Bool) (s : List Char) : Option (List Char × List Char × Bool) := do
  let s ← dropLit "(уп".data s
  let s := dropOptDot s
  let s := s.dropWhile isPySpace
  let (_, s) ← dropDigits1 s
  let s := s.dropWhile isPySpace
  let s ← dropLit "шт".data s
  let s := dropOptDot s
  let s ← dropLit ")".data s
  some ([], s, true)

/-- `re.sub(r'\(\d+\s*шт\)', '', ...)`. -/
def mPackN (_ : Bool) (s : List Char) : Option (List Char × List Char × Bool) := do
  let s ← dropLit "(".data s
  let (_, s) ← dropDigits1 s
  let s := s.dropWhile isPySpace
  let s ← dropLit "шт)".data s
  some ([], s, true)

/-- `re.sub(r'\(\d+\.\d+\)', '', ...)` (wall thickness). -/
def mThickness (_ : Bool) (s : List Char) : Option (List Char × List Char × Bool) := do
  let s ← dropLit "(".data s
  let (_, s) ← dropDigits1 s
  let s ← dropLit ".".data s
  let (_, s) ← dropDigits1 s
  let s ← dropLit ")".data s
  some ([], s, true)

/-- Plain literal replacement (patterns with no classes or boundaries). -/
def mLit (lit rep : List Char) (_ : Bool) (s : List Char) :
    Option (List Char × List Char × Bool) := do
  let rest ← dropLit lit s
  some (rep, rest, true)

/-- `re.sub(r'\bсоединительн\w*', '', ...)`. -/
def mSoedin (bnd : Bool) (s : List Char) : Option (List Char × List Char × Bool) := do
  if bnd then
    let s ← dropLit "соединительн".data s
    some ([], s.dropWhile isPyWordChar, false)
  else none

/-- `re.sub(r'\bпереход\b', 'переходник', ...)`. -/
def mPerehod (bnd : Bool) (s : List Char) : Option (List Char × List Char × Bool) := do
  if bnd then
    let rest ← dropLit "переход".data s
    if boundAfterWord rest then some ("переходник".data, rest, false) else none
  else none

/-- `re.sub(r'\bкомпенсатор\s+кан', 'патрубок компенсационный', ...)`. -/
def mKompensator (bnd : Bool) (s : List Char) : Option (List Char × List Char × Bool) := do
  if bnd then
    let s ← dropLit "компенсатор".data s
    let s ← dropWs1 s
    let s ← dropLit "кан".data s
    some ("патрубок компенсационный".data, s, false)
  else none

/-- `re.sub(r'\bхомут\s+(\d+)\b', convert_clamp_mm_to_inch, ...)`. -/
def mClamp (bnd : Bool) (s : List Char) : Option (List Char × List Char × Bool) := do
  if bnd then
    let s ← dropLit "хомут".data s
    let s ← dropWs1 s
    let (ds, rest) ← dropDigits1 s
    if boundAfterWord rest then
      let mm := digitsToNat ds
      let inch := match PIPE_MM_TO_INCH.lookup mm with
        | some i => i
        | none => toString mm
      some (("хомут в комплекте " ++ inch).data, rest, false)
    else none
  else none

/-- `re.sub(r'(\d+)\s*[-xхXХ*×]\s*(\d+)', r'\1×\2', ...)` (pair separators). -/
def isSepChar (c : Char) : Bool :=
  c = '-' || c = 'x' || c = 'х' || c = 'X' || c = 'Х' || c = '*' || c = '×'

def mSepUnify (_ : Bool) (s : List Char) : Option (List Char × List Char × Bool) := do
  let (d1, s) ← dropDigits1 s
  let s := s.dropWhile isPySpace
  match s with
  | c :: s =>
    if isSepChar c then
      let s := s.dropWhile isPySpace
      let (d2, rest) ← dropDigits1 s
      some (d1 ++ '×' :: d2, rest, false)
    else none
  | [] => none

/-- `re.sub(r'\bмалошумн\w*\b', 'prestige', ...)` (after greedy `\w*` the
final `\b` always holds). -/
def mMaloshumn (bnd : Bool) (s : List Char) : Option (List Char × List Char × Bool) := do
  if bnd then
    let s ← dropLit "малошумн".data s
    some ("prestige".data, s.dropWhile isPyWordChar, false)
  else none

/-- `re.sub(r'\bpn\s*[-]?\s*(\d+)', r'pn\1', ...)`. -/
def mPn (bnd : Bool) (s : List Char) : Option (List Char × List Char × Bool) := do
  if bnd then
    let s ← dropLit "pn".data s
    let s := s.dropWhile isPySpace
    let s := match s with
      | '-' :: r => r.dropWhile isPySpace
      | s => s
    let (ds, rest) ← dropDigits1 s
    some ('p' :: 'n' :: ds, rest, false)
  else none

/-- Python `s.split()` (split on whitespace runs, no empty tokens),
driven by a fuel argument for structural termination. -/
def pySplitGo : Nat → List Char → List String
  | 0, _ => []
  | _ + 1, [] => []
  | n + 1, c :: cs =>
    if isPySpace c then pySplitGo n cs
    else
      String.mk (c :: cs.takeWhile (fun d => !isPySpace d)) ::
        pySplitGo n (cs.dropWhile (fun d => !isPySpace d))

def pySplitTokens (s : List Char) : List String := pySplitGo s.length s

def joinSpace (ts : List String) : List Char :=
  match ts with
  | [] => []
  | t :: rest => t.data ++ rest.foldl (fun acc u => acc ++ ' ' :: u.data) []

def collapseWs (s : List Char) : List Char := joinSpace (pySplitTokens s)

/-! ## Token-based fuzz scores

`matching.py` calls `fuzzywuzzy.fuzz.token_sort_ratio` / `token_set_ratio`
(integer results, inputs passed through `utils.full_process`);
`hybrid.py` calls the `rapidfuzz` versions (exact float results, no
processing).  Both are modelled; floats are `ℚ`. -/

/-- Lexicographic (code-point) order on strings, as in Python `sorted`. -/
def strLe (a b : String) : Bool :=
  lexLe a.data b.data
where lexLe : List Char → List Char → Bool
  | [], _ => true
  | _ :: _, [] => false
  | c :: cs, d :: ds =>
    if c.toNat < d.toNat then true
    else if d.toNat < c.toNat then false
    else lexLe cs ds

/-- Stable insertion sort (structural, so that the kernel can evaluate
it): an element is placed before the first strictly larger one, keeping
the original order of equals, as Python `sorted` does. -/
def insertAsc (x : String) : List String → List String
  | [] => [x]
  | y :: ys => if strLe x y then x :: y :: ys else y :: insertAsc x ys

def sortStrs (ts : List String) : List String := ts.foldr insertAsc []

/-- Deduplicate keeping first occurrences (Python `set` then `sorted`). -/
def dedupGo (seen : List String) : List String → List String
  | [] => []
  | x :: xs =>
    if seen.contains x then dedupGo seen xs else x :: dedupGo (x :: seen) xs

def dedup (ts : List String) : List String := dedupGo [] ts

def pyStrip (s : List Char) : List Char :=
  ((s.dropWhile isPySpace).reverse.dropWhile isPySpace).reverse

/-- fuzzywuzzy `utils.full_process(s, force_ascii=True)`: drop the
characters U+0080..U+00FF (`asciidammit`), replace non-word characters by a
space, lowercase, strip. -/
def fullProcess (s : List Char) : List Char :=
  let s := s.filter (fun c => !(128 ≤ c.toNat && c.toNat ≤ 255))
  let s := s.map (fun c => if isPyWordChar c then c else ' ')
  let s := s.map pyLowerChar
  pyStrip s

/-- fuzzywuzzy `_process_and_sort`: full-process, split, sort, join. -/
def processAndSort (s : List Char) : List Char :=
  joinSpace (sortStrs (pySplitTokens (fullProcess s)))

/-- fuzzywuzzy `fuzz.token_sort_ratio`. -/
def tokenSortInt (a b : String) : ℕ :=
  simInt (processAndSort a.data) (processAndSort b.data)

/-- fuzzywuzzy `fuzz.token_set_ratio`: compare the sorted intersection of
the token sets with the two sorted unions, take the best of the three
pairwise scores. -/
def tokenSetInt (a b : String) : ℕ :=
  let p1 := fullProcess a.data
  let p2 := fullProcess b.data
  if p1.isEmpty || p2.isEmpty then 0
  else
    let t1 := dedup (pySplitTokens p1)
    let t2 := dedup (pySplitTokens p2)
    let sect := t1.filter (fun x => t2.contains x)
    let d12 := t1.filter (fun x => !t2.contains x)
    let d21 := t2.filter (fun x => !t1.contains x)
    let s0 := joinSpace (sortStrs sect)
    let c12 := pyStrip (s0 ++ ' ' :: joinSpace (sortStrs d12))
    let c21 := pyStrip (s0 ++ ' ' :: joinSpace (sortStrs d21))
    max (simInt s0 c12) (max (simInt s0 c21) (simInt c12 c21))

/-- rapidfuzz `fuzz.token_sort_ratio` (no processing, exact value). -/
def tokenSortQ (a b : String) : ℚ :=
  simQ (joinSpace (sortStrs (pySplitTokens a.data)))
       (joinSpace (sortStrs (pySplitTokens b.data)))

/-- rapidfuzz `fuzz.token_set_ratio` (no processing, exact value). -/
def tokenSetQ (a b : String) : ℚ :=
  let t1 := dedup (pySplitTokens a.data)
  let t2 := dedup (pySplitTokens b.data)
  if t1.isEmpty || t2.isEmpty then 0
  else
    let sect := t1.filter (fun x => t2.contains x)
    let d12 := t1.filter (fun x => !t2.contains x)
    let d21 := t2.filter (fun x => !t1.contains x)
    if !sect.isEmpty && (d12.isEmpty || d21.isEmpty) then 100
    else
      let s0 := joinSpace (sortStrs sect)
      let c12 := pyStrip (s0 ++ ' ' :: joinSpace (sortStrs d12))
      let c21 := pyStrip (s0 ++ ' ' :: joinSpace (sortStrs d21))
      max (simQ s0 c12) (max (simQ s0 c21) (simQ c12 c21))

/-- `normalize_name` translated step by step from the source. -/
def normalize_name (name : String) : String :=
  if name = "" then ""
  else
    -- lower(), NFKC (identity on this domain), ё → е
    let l := name.data.map pyLowerChar
    let l := l.map (fun c => if c.toNat = 1105 then Char.ofNat 1077 else c)
    let l := (expand_synonyms (String.mk l)).data
    let l := reSub mPackUp l
    let l := reSub mPackN l
    let l := reSub mThickness l
    let l := reSub (mLit "(двухраструбная)".data []) l
    let l := reSub (mLit "(ремонтная)".data "ремонтная".data) l
    let l := reSub mSoedin l
    let l := reSub mPerehod l
    let l := reSub (mWordKey "эксц".data [] true) l
    let l := reSub mKompensator l
    let l := reSub mClamp l
    let l := reSub (mWordKey "серый".data [] false) l
    let l := reSub (mWordKey "белый".data [] false) l
    let l := reSub mSepUnify l
    let l := reSub (mWordKey "jk".data [] false) l
    let l := reSub (mWordKey "jakko".data [] false) l
    let l := reSub mMaloshumn l
    let l := reSub mPn l
    let l := collapseWs l
    let l := l.map (fun c => if isPyWordChar c || isPySpace c then c else ' ')
    let l := collapseWs l
    String.mk l

/-! ## Attribute extractors -/

/-- Python `sub in s` (substring containment). -/
def isSubOf (pat : List Char) : List Char → Bool
  | [] => pat.isEmpty
  | c :: cs => pat.isPrefixOf (c :: cs) || isSubOf pat cs

def containsStr (s sub : String) : Bool := isSubOf sub.data s.data

/-- Find the first (leftmost) match of a positional matcher,
tracking the `\b` information. -/
def findFirstB (m : Bool → List Char → Option α) : Bool → List Char → Option α
  | _, [] => none
  | bnd, c :: cs =>
    match m bnd (c :: cs) with
    | some r => some r
    | none => findFirstB m (!isPyWordChar c) cs

/-! ### `extract_pipe_size` (normalizers.py, lines 157-177) -/

/-- Positional matcher for `(\d+)\s*[×xхXХ*\-]\s*(\d+)`. -/
def mPipePair (_ : Bool) (s : List Char) : Option (Nat × Nat) := do
  let (d1, s) ← dropDigits1 s
  let s := s.dropWhile isPySpace
  match s with
  | c :: s =>
    if isSepChar c then do
      let s := s.dropWhile isPySpace
      let (d2, _) ← dropDigits1 s
      some (digitsToNat d1, digitsToNat d2)
    else none
  | [] => none

def extract_pipe_size (name : String) : Option (Nat × Nat) :=
  if name = "" then none
  else
    match findFirstB mPipePair true name.data with
    | some (d, l) =>
      if 16 ≤ d && d ≤ 400 && 100 ≤ l && l ≤ 6000 then some (d, l) else none
    | none => none

/-! ### `extract_fitting_size` (normalizers.py, lines 180-219) -/

/-- `re.sub(r'\b(45|67|87|90)\s*°', '', ...)`. -/
def mAngleDeg (bnd : Bool) (s : List Char) : Option (List Char × List Char × Bool) :=
  if bnd then
    ["45", "67", "87", "90"].findSome? fun lit => do
      let s ← dropLit lit.data s
      let s := s.dropWhile isPySpace
      let s ← dropLit "°".data s
      some ([], s, true)
  else none

/-- Candidate splits for `\d{2,3}` in greedy-backtracking order
(3 digits first, then 2). -/
def grab23 (s : List Char) : List (List Char × List Char) :=
  let ds := s.takeWhile Char.isDigit
  (if 3 ≤ ds.length then [(s.take 3, s.drop 3)] else []) ++
  (if 2 ≤ ds.length then [(s.take 2, s.drop 2)] else [])

/-- Separator class of the fitting-size pattern: dash, slash, ×, x (Latin
and Cyrillic, both cases), star. -/
def isFitSep (c : Char) : Bool :=
  c = '-' || c = '/' || c = '×' || c = 'x' || c = 'х' || c = 'X' || c = 'Х' || c = '*'

/-- Positional matcher for the multi-size fitting pattern: up to three
bounded 2-3 digit groups joined by fitting separators with optional
whitespace, with the regex backtracking order spelled out. -/
def mFitMulti (bnd : Bool) (s : List Char) : Option (List Nat) :=
  if !bnd then none
  else
    (grab23 s).findSome? fun (d1, s1) =>
      let s1 := s1.dropWhile isPySpace
      match s1 with
      | c :: s2 =>
        if isFitSep c then
          let s2 := s2.dropWhile isPySpace
          (grab23 s2).findSome? fun (d2, s3) =>
            let third : Option (List Nat) :=
              (let s4 := s3.dropWhile isPySpace
               match s4 with
               | e :: s5 =>
                 if isFitSep e then
                   let s5 := s5.dropWhile isPySpace
                   (grab23 s5).findSome? fun (d3, s6) =>
                     if boundAfterWord s6 then
                       some [digitsToNat d1, digitsToNat d2, digitsToNat d3]
                     else none
                 else none
               | [] => none)
            match third with
            | some r => some r
            | none =>
              if boundAfterWord s3 then some [digitsToNat d1, digitsToNat d2]
              else none
        else none
      | [] => none

/-- All matches of `\b(\d{2,3})\b` (`re.findall` semantics), fuelled. -/
def findAllNums : Nat → Bool → List Char → List Nat
  | 0, _, _ => []
  | _ + 1, _, [] => []
  | n + 1, bnd, c :: cs =>
    if bnd && c.isDigit then
      match (grab23 (c :: cs)).findSome?
          (fun (d, r) => if boundAfterWord r then some (d, r) else none) with
      | some (d, r) => digitsToNat d :: findAllNums n false r
      | none => findAllNums n (!isPyWordChar c) cs
    else findAllNums n (!isPyWordChar c) cs

def FITTING_TYPE_MARKERS : List String :=
  ["муфт", "заглуш", "ревизи", "крестовин", "тройник", "переход", "отвод", "сифон"]

def extract_fitting_size (name : String) : Option (List Nat) :=
  if name = "" then none
  else
    let clean := reSub mAngleDeg name.data
    let nameLower := clean.map pyLowerChar
    let single : Option (List Nat) :=
      if FITTING_TYPE_MARKERS.any (fun m => isSubOf m.data nameLower) then
        match (findAllNums nameLower.length true nameLower).filter
            (fun n => 25 ≤ n && n ≤ 200) with
        | n :: _ => some [n]
        | [] => none
      else none
    match findFirstB mFitMulti true clean with
    | some sizes =>
      if sizes.all (fun s => 25 ≤ s && s ≤ 200) then some sizes else single
    | none => single

/-! ### `extract_product_type` (matching.py, lines 71-108; the table in
`matching_helpers.py` reads the same markers from the missing
`backend/constants.py`, cf. spec §4.2). -/

def PRODUCT_TYPE_MARKERS : List (String × String) :=
  [("крестовин", "крестовина"), ("тройник", "тройник"),
   ("переход", "переходник"), ("ред", "переходник"),
   ("разъемн", "муфта"),
   ("отвод", "отвод"), ("колено", "отвод"), ("угол", "отвод"),
   ("муфт", "муфта"), ("заглуш", "заглушка"), ("ревизи", "ревизия"),
   ("патруб", "патрубок"), ("опор", "клипса"), ("клипс", "клипса"),
   ("труб", "труба"), ("хомут", "хомут"), ("кран", "кран"),
   ("фильтр", "фильтр"), ("клапан", "клапан"), ("сифон", "сифон")]

def extract_product_type (name : String) : Option String :=
  let low := name.data.map pyLowerChar
  PRODUCT_TYPE_MARKERS.findSome? fun mt =>
    if isSubOf mt.1.data low then some mt.2 else none

/-! ### `extract_angle` / `normalize_angle` (matching.py, lines 111-133) -/

def ANGLE_LITS : List (String × Nat) :=
  [("15", 15), ("30", 30), ("45", 45), ("67", 67), ("87", 87), ("90", 90)]

/-- `\b(15|30|45|67|87|90)\s*[°градус]?`: the tail is optional, so a
bounded occurrence of one of the numbers suffices. -/
def mAngleA (bnd : Bool) (s : List Char) : Option Nat :=
  if bnd then
    ANGLE_LITS.findSome? fun ln =>
      if ln.1.data.isPrefixOf s then some ln.2 else none
  else none

/-- `/\s*(15|30|45|67|87|90)\b`. -/
def mAngleB (_ : Bool) (s : List Char) : Option Nat :=
  match s with
  | '/' :: r =>
    let r := r.dropWhile isPySpace
    ANGLE_LITS.findSome? fun ln => do
      let rest ← dropLit ln.1.data r
      if boundAfterWord rest then some ln.2 else none
  | _ => none

def extract_angle (name : String) : Option Nat :=
  let low := name.data.map pyLowerChar
  match findFirstB mAngleA true low with
  | some n => some n
  | none => findFirstB mAngleB true low

def normalize_angle : Option Nat → Option Nat
  | none => none
  | some a => some (if a = 90 then 87 else a)

/-! ### `detect_client_category` (matching.py, lines 19-68) -/

def detect_client_category (client_name : String) : Option String :=
  let name := pyLower client_name
  let isSewer := ["кан", "канализац", "сантех"].any (containsStr name)
  let isGray := containsStr name "сер"
  if ["pert", "pe-rt", "термостойк"].any (containsStr name) then some "pert"
  else if ["пнд", "hdpe", "компресс", "цанг"].any (containsStr name) then some "pnd"
  else if ["малошум", "prestige"].any (containsStr name) then some "prestige"
  else if isSewer && containsStr name "бел" then some "prestige"
  else if ["нар кан", "нар.кан", "наружн", "рыж"].any (containsStr name) then
    some "outdoor"
  else if isGray || isSewer then some "sewer"
  else if ["ппр", "ppr", "водопровод", "отоплен", " пп ", "пп "].any
      (containsStr name) then some "ppr"
  else if ["армир", "арм.", "арм "].any (containsStr name) then some "ppr"
  else if ["вн/нр", "вн нр", "пн/нр"].any (containsStr name) then some "ppr"
  else if containsStr name "бел" && !isSewer then some "ppr"
  else none

/-! ### `extract_thread_type` (matching.py, lines 284-293) -/

def extract_thread_type (name : String) : Option String :=
  let low := pyLower name
  if ["в/р", "вн.рез", "вн. рез", "вн рез", "внутр", "(вр)", "вр)", " вр "].any
      (containsStr low) then some "вн"
  else if ["н/р", "нар.рез", "нар. рез", "нар рез", "наруж", "(нр)", "нр)", " нр "].any
      (containsStr low) then some "нар"
  else none

/-! ### `extract_mm_from_clamp` / `clamp_fits_mm` (matching.py, 453-505) -/

/-- `\bхомут\s+(?:в\s+комплекте\s+)?(\d+)`. -/
def mClampP1 (bnd : Bool) (s : List Char) : Option Nat :=
  if bnd then do
    let s ← dropLit "хомут".data s
    let s ← dropWs1 s
    let withGroup : Option Nat := do
      let t ← dropLit "в".data s
      let t ← dropWs1 t
      let t ← dropLit "комплекте".data t
      let t ← dropWs1 t
      let (ds, _) ← dropDigits1 t
      some (digitsToNat ds)
    match withGroup with
    | some n => some n
    | none => do
      let (ds, _) ← dropDigits1 s
      some (digitsToNat ds)
  else none

/-- `\bхомут\s+(?:для\s+)?(?:труб\w*\s+)?(\d+)`. -/
def mClampP2 (bnd : Bool) (s : List Char) : Option Nat :=
  if bnd then do
    let s ← dropLit "хомут".data s
    let s ← dropWs1 s
    let afterDlya : Option (List Char) := do
      let t ← dropLit "для".data s
      dropWs1 t
    let tryTrub (u : List Char) : Option Nat := do
      let t ← dropLit "труб".data u
      let t := t.dropWhile isPyWordChar
      let t ← dropWs1 t
      let (ds, _) ← dropDigits1 t
      some (digitsToNat ds)
    let tryDigits (u : List Char) : Option Nat := do
      let (ds, _) ← dropDigits1 u
      some (digitsToNat ds)
    match afterDlya with
    | some t =>
      match tryTrub t with
      | some n => some n
      | none =>
        match tryDigits t with
        | some n => some n
        | none =>
          match tryTrub s with
          | some n => some n
          | none => tryDigits s
    | none =>
      match tryTrub s with
      | some n => some n
      | none => tryDigits s
  else none

/-- `\bхомут\s*[∅dд]?\s*(\d+)`. -/
def mClampP3 (bnd : Bool) (s : List Char) : Option Nat :=
  if bnd then do
    let s ← dropLit "хомут".data s
    let s := s.dropWhile isPySpace
    let withMark : Option Nat :=
      match s with
      | c :: t =>
        if c = '∅' || c = 'd' || c = 'д' then do
          let t := t.dropWhile isPySpace
          let (ds, _) ← dropDigits1 t
          some (digitsToNat ds)
        else none
      | [] => none
    match withMark with
    | some n => some n
    | none => do
      let (ds, _) ← dropDigits1 s
      some (digitsToNat ds)
  else none

def extract_mm_from_clamp (client_name : String) : Option Nat :=
  let name := pyLower client_name
  if !containsStr name "хомут" then none
  else
    let tryPat (m : Bool → List Char → Option Nat) : Option Nat :=
      match findFirstB m true name.data with
      | some mm => if 15 ≤ mm && mm ≤ 200 then some mm else none
      | none => none
    match tryPat mClampP1 with
    | some mm => some mm
    | none =>
      match tryPat mClampP2 with
      | some mm => some mm
      | none => tryPat mClampP3

/-- `re.search(r'\((\d+)-(\d+)\)', product_name)` then range check. -/
def mClampRange (_ : Bool) (s : List Char) : Option (Nat × Nat) := do
  let s ← dropLit "(".data s
  let (d1, s) ← dropDigits1 s
  let s ← dropLit "-".data s
  let (d2, s) ← dropDigits1 s
  let _ ← dropLit ")".data s
  some (digitsToNat d1, digitsToNat d2)

def clamp_fits_mm (product_name : String) (target_mm : Nat) : Bool :=
  match findFirstB mClampRange true product_name.data with
  | some (lo, hi) => lo ≤ target_mm && target_mm ≤ hi
  | none => false

/-! ### `is_eco_product` (matching.py, 437-450), `normalize_equal_sizes`
(matching.py, 479-495) -/

def is_eco_product (name : String) : Bool :=
  let low := pyLower name
  if containsStr low "(1.8)" then false
  else containsStr low "эко" || containsStr low "eko" || containsStr low "(2.2)"

def normalize_equal_sizes (size : List Nat) : List Nat :=
  match size with
  | [] => []
  | s0 :: rest =>
    if rest ≠ [] && size.all (fun s => s = s0) then [s0] else size

/-! ### Functions missing from the source tree (modelled from the spec) -/

/-- Modelled from the spec: `extract_thread_size` is imported from
`backend.utils.normalizers` but is not defined anywhere in the source
tree.  Spec §4.2: "matches combinations of the form `Nmm×K"` where K is
one of 1/2, 3/4, 1, 1 1/4, 1 1/2, 2".  Modelled as the first occurrence
of digits, a pair separator, one of the inch literals (longest first) and
a double quote, returning `(mm, inch-string)`. -/
def THREAD_INCH_LITS : List String := ["1 1/4", "1 1/2", "1/2", "3/4", "1", "2"]

def mThreadSize (_ : Bool) (s : List Char) : Option (Nat × String) := do
  let (ds, s) ← dropDigits1 s
  let s := s.dropWhile isPySpace
  match s with
  | c :: s =>
    if isSepChar c then
      let s := s.dropWhile isPySpace
      THREAD_INCH_LITS.findSome? fun lit => do
        let rest ← dropLit lit.data s
        let _ ← dropLit "\"".data rest
        some (digitsToNat ds, lit)
    else none
  | [] => none

def extract_thread_size (name : String) : Option (Nat × String) :=
  findFirstB mThreadSize true (pyLower name).data

/-- Modelled from the spec: `is_coupling_detachable` is imported from
`backend.utils.normalizers` but missing from the source tree.  Spec §4.2
calls it a closed token set; the glossary defines the detachable coupling
(американка) by the `разъемн` token. -/
def is_coupling_detachable (name : String) : Bool :=
  let low := pyLower name
  containsStr low "разъемн" || containsStr low "американ"

/-- Modelled from the spec: `is_reducer` is imported from
`backend.utils.normalizers` but missing from the source tree.  Spec §4.2
calls it a closed token set; the filter in matching.py describes the
request words "переходник/переходную". -/
def is_reducer (name : String) : Bool :=
  let low := pyLower name
  containsStr low "переходн" || containsStr low "редукц"

/-- Modelled from the spec: `extract_color` is imported from
`backend.utils.matching_helpers` but missing from the source tree.
Spec §4.2: `extract_color(s) → white|gray|red|none`. -/
def extract_color (name : String) : Option String :=
  let low := pyLower name
  if containsStr low "бел" then some "white"
  else if containsStr low "сер" then some "gray"
  else if containsStr low "рыж" || containsStr low "красн" then some "red"
  else none

/-! ## Data model and configuration (backend/models/schemas.py,
backend/config.py) -/

/-- A catalogue row as loaded from the products table.  `category` models
the nullable DB column with `""` for null (the code reads it through
`.get('category', '')`). -/
structure Product where
  id : String
  sku : String
  name : String
  category : String := ""
  pack_qty : Nat := 1
deriving Repr, DecidableEq

/-- A verified client mapping row as cached by `_load_client_mappings`
(keyed by normalized client SKU). -/
structure MappingRow where
  product_id : String
deriving Repr, DecidableEq

structure MatchResult where
  product_id : Option String := none
  product_sku : Option String := none
  product_name : Option String := none
  confidence : ℚ
  match_type : String
  needs_review : Bool
  pack_qty : Nat := 1
deriving Repr, DecidableEq

/-- LLM answer `{sku, name, confidence}`; `confidence` is absent when the
JSON lacks the key (the call sites apply different defaults). -/
structure LlmSuggestion where
  sku : String
  confidence : Option ℚ := none
deriving Repr, DecidableEq

/-- The LLM matcher interface (`get_llm_matcher()` may be None). -/
structure LlmMatcher where
  matchQuery : String → Option LlmSuggestion

/-- Settings (backend/config.py). -/
def fuzzy_threshold : ℕ := 70
def confidence_exact_sku : ℚ := 100
def confidence_exact_name : ℚ := 95
def confidence_fuzzy_sku : ℚ := 90
def confidence_fuzzy_name : ℚ := 80
def min_confidence_auto : ℚ := 80

/-- `CRITICAL_TYPES` (matching.py, lines 760 and 956). -/
def CRITICAL_TYPES : List String :=
  ["кран", "муфта", "отвод", "тройник", "переходник", "заглушка",
   "ревизия", "крестовина"]

/-- Python exceptions that can escape `match_item`. -/
inductive PyErr where
  | indexErr
deriving Repr, DecidableEq

/-! ## `filter_by_category` (matching.py, lines 136-198; the copy in
matching_helpers.py lines 145-220 is identical).  The function accepts
either bare products or scored tuples; the projection argument models that
duck typing. -/

/-- Python `s.startswith(pre)` on the character level. -/
def startsWithStr (s pre : String) : Bool := pre.data.isPrefixOf s.data

/-- The keep-rule of the strict sewer branch. -/
def sewerKeep (p : Product) : Bool :=
startsWithStr p.sku "202" ||
  (containsStr (pyLower p.name) "серый" && !containsStr (pyLower p.name) "рифлен")

def filter_by_category {α : Type} (getP : α → Product) (ms : List α)
    (client_cat : Option String) : List α :=
  if ms.isEmpty then ms
  else if client_cat = some "pert" then
    let f := ms.filter fun m =>
startsWithStr (getP m).sku "501" || containsStr (pyLower (getP m).name) "pert"
    if f.isEmpty then ms else f
  else if client_cat = some "pnd" then
    let f := ms.filter fun m =>
startsWithStr (getP m).sku "704" || containsStr (pyLower (getP m).name) "компресс"
    if f.isEmpty then ms else f
  else if client_cat = some "prestige" then
    let f := ms.filter fun m =>
      containsStr (pyLower (getP m).category) "малошум" ||
      containsStr (pyLower (getP m).name) "prestige"
    if f.isEmpty then ms else f
  else if client_cat = some "outdoor" then
    let f := ms.filter fun m =>
startsWithStr (getP m).sku "303" || startsWithStr (getP m).sku "604" ||
      containsStr (pyLower (getP m).category) "наружн" ||
      containsStr (pyLower (getP m).name) "нар.кан" ||
      containsStr (pyLower (getP m).name) "рифлен"
    if f.isEmpty then ms else f
  else if client_cat = some "ppr" then
    let f := ms.filter fun m =>
      containsStr (pyLower (getP m).category) "ппр" ||
      containsStr (pyLower (getP m).name) "ппр"
    if f.isEmpty then ms else f
  else if client_cat = some "sewer" then
    -- strict branch: returned directly, possibly empty
    ms.filter fun m => sewerKeep (getP m)
  else
    let sku202 := ms.filter fun m => startsWithStr (getP m).sku "202"
    if !sku202.isEmpty then sku202
    else
      let f := ms.filter fun m =>
        (containsStr (pyLower (getP m).category) "канализац" &&
         !containsStr (pyLower (getP m).category) "малошум" &&
         !containsStr (pyLower (getP m).category) "наружн") ||
        containsStr (pyLower (getP m).name) "серый"
      if f.isEmpty then ms else f

/-! ## Post filters used on `top_matches` (matching.py, 296-434) -/

def filter_by_thread (ms : List (Product × ℕ)) (client_thread : Option String) :
    List (Product × ℕ) :=
  if ms.isEmpty || client_thread.isNone || ms.length ≤ 1 then ms
  else
    let f := ms.filter fun m => extract_thread_type m.1.name = client_thread
    if f.isEmpty then ms else f

/-- Python `set([a, b]) == set([c, d])`. -/
def pairSetEq (a b c d : Nat) : Bool :=
  (a = c && b = d) || (a = d && b = c)

def filter_by_fitting_size (ms : List (Product × ℕ))
    (client_size : Option (List Nat)) : List (Product × ℕ) :=
  match client_size with
  | none => ms
  | some cs =>
    if ms.isEmpty || ms.length ≤ 1 then ms
    else if 2 ≤ cs.length then
      match cs with
      | [c0, c1, c2] =>
        let exact := ms.filter fun m => extract_fitting_size m.1.name = some cs
        if !exact.isEmpty then exact
        else
          let perm := ms.filter fun m =>
            match extract_fitting_size m.1.name with
            | some [p0, p1, p2] => p1 = c1 && pairSetEq p0 p2 c0 c2
            | _ => false
          if perm.isEmpty then ms else perm
      | _ =>
        let exact := ms.filter fun m => extract_fitting_size m.1.name = some cs
        if !exact.isEmpty then exact
        else
          let first := ms.filter fun m =>
            match extract_fitting_size m.1.name with
            | some (p0 :: _) => p0 = cs.headD 0
            | _ => false
          if first.isEmpty then ms else first
    else
      let s := cs.headD 0
      let singleOnly := ms.filter fun m =>
        match extract_fitting_size m.1.name with
        | some [p0] => p0 = s
        | _ => false
      if !singleOnly.isEmpty then singleOnly
      else
        let sameSize := ms.filter fun m =>
          extract_fitting_size m.1.name = some [s, s]
        if !sameSize.isEmpty then sameSize
        else
          let first := ms.filter fun m =>
            match extract_fitting_size m.1.name with
            | some (p0 :: _) => p0 = s
            | _ => false
          if first.isEmpty then ms else first

def filter_by_thread_size (ms : List (Product × ℕ))
    (client_thread : Option (Nat × String)) : List (Product × ℕ) :=
  match client_thread with
  | none => ms
  | some (mm, inches) =>
    if ms.isEmpty || ms.length ≤ 1 then ms
    else
      let f := ms.filter fun m =>
        let nm := pyLower m.1.name
        containsStr nm (toString mm ++ "x" ++ inches ++ "\"") ||
        containsStr nm (toString mm ++ "×" ++ inches ++ "\"") ||
        containsStr nm (toString mm ++ "*" ++ inches ++ "\"") ||
        containsStr nm (toString mm ++ "-" ++ inches ++ "\"")
      if f.isEmpty then ms else f

/-! ## `MatchingService.match_item` (matching.py, lines 610-984)

The embedding matcher is disabled in level 5 (the source sets
`search_products = products` with pgvector commented out, lines 707-710),
so level 5 scans the whole catalogue.  `llm` models `get_llm_matcher()`
(`none` when unavailable). -/

def exactSkuFind (products : List Product) (normSku : String) : Option Product :=
  products.find? fun p => normalize_sku p.sku == normSku

def exactNameFind (products : List Product) (normName : String) : Option Product :=
  products.find? fun p => normalize_name p.name == normName

def cachedFind (products : List Product) (mappings : List (String × MappingRow))
    (normSku : String) : Option Product :=
  (mappings.lookup normSku).bind fun m =>
    products.find? fun p => p.id == m.product_id

/-- Level 4 loop: keep the first strict maximum of the SKU similarity,
only when it reaches 90. -/
def fuzzySkuBest (products : List Product) (normSku : String) :
    Option Product × ℕ :=
  products.foldl
    (fun acc p =>
      let r := simInt normSku.data (normalize_sku p.sku).data
      if acc.2 < r && 90 ≤ r then (some p, r) else acc)
    (none, 0)

def mkExactSku (p : Product) : MatchResult :=
  { product_id := some p.id, product_sku := some p.sku, product_name := some p.name,
    confidence := confidence_exact_sku, match_type := "exact_sku",
    needs_review := false, pack_qty := p.pack_qty }

def mkExactName (p : Product) : MatchResult :=
  { product_id := some p.id, product_sku := some p.sku, product_name := some p.name,
    confidence := confidence_exact_name, match_type := "exact_name",
    needs_review := false, pack_qty := p.pack_qty }

def mkCached (p : Product) : MatchResult :=
  { product_id := some p.id, product_sku := some p.sku, product_name := some p.name,
    confidence := confidence_exact_sku, match_type := "cached_mapping",
    needs_review := false, pack_qty := p.pack_qty }

def mkFuzzySku (p : Product) (r : ℕ) : MatchResult :=
  { product_id := some p.id, product_sku := some p.sku, product_name := some p.name,
    confidence := qMul confidence_fuzzy_sku (mkRat r 100), match_type := "fuzzy_sku",
    needs_review := r < 95, pack_qty := p.pack_qty }

def mkFuzzyName (p : Product) (conf : ℚ) : MatchResult :=
  { product_id := some p.id, product_sku := some p.sku, product_name := some p.name,
    confidence := conf, match_type := "fuzzy_name",
    needs_review := conf < min_confidence_auto, pack_qty := p.pack_qty }

def notFound : MatchResult :=
  { product_id := none, product_sku := none, product_name := none,
    confidence := 0, match_type := "not_found", needs_review := true }

/-- The hard gates of the level-5 scan loop (matching.py, lines 714-742):
pipe size, thread size, fitting size.  A product *without* the attribute
passes the pipe-size and thread-size gates. -/
def level5Gate (clientSize : Option (Nat × Nat))
    (clientThreadSize : Option (Nat × String))
    (clientFitting : Option (List Nat)) (p : Product) : Bool :=
  (match clientSize with
   | none => true
   | some cs =>
     match extract_pipe_size p.name with
     | some ps => ps = cs
     | none => true) &&
  (match clientThreadSize with
   | none => true
   | some ct =>
     match extract_thread_size p.name with
     | some pt => pt = ct
     | none => true) &&
  (match clientFitting with
   | none => true
   | some cf =>
     match extract_fitting_size p.name with
     | some pf =>
       let nc := normalize_equal_sizes cf
       let np := normalize_equal_sizes pf
       match nc with
       | [c0] => np.headD 0 = c0
       | _ => np = nc
     | none => true)

/-- Level-5 candidate collection (matching.py, lines 713-750): survivors of
the hard gates scored by `max(token_sort_ratio, token_set_ratio)` and
thresholded. -/
def level5Collect (products : List Product) (normName : String)
    (clientSize : Option (Nat × Nat)) (clientThreadSize : Option (Nat × String))
    (clientFitting : Option (List Nat)) : List (Product × ℕ) :=
  products.filterMap fun p =>
    if level5Gate clientSize clientThreadSize clientFitting p then
      let pn := normalize_name p.name
      let r := max (tokenSortInt normName pn) (tokenSetInt normName pn)
      if fuzzy_threshold ≤ r then some (p, r) else none
    else none

/-- Product-type filter of level 5 (matching.py, lines 758-769): hard for
critical types (empties the candidate list). -/
def typeStepM (clientType : Option String) (ms : List (Product × ℕ)) :
    List (Product × ℕ) :=
  match clientType with
  | none => ms
  | some t =>
    let f := ms.filter fun m => extract_product_type m.1.name = some t
    if !f.isEmpty then f
    else if CRITICAL_TYPES.contains t then []
    else ms

/-- Angle filter of level 5 (matching.py, lines 771-778). -/
def angleStepM (clientAngle : Option Nat) (ms : List (Product × ℕ)) :
    List (Product × ℕ) :=
  match clientAngle with
  | none => ms
  | some a =>
    match normalize_angle (some a) with
    | some na =>
      let f := ms.filter fun m => extract_angle m.1.name = some na
      if !f.isEmpty then f else ms
    | none => ms

/-- Category filter of level 5 (matching.py, lines 780-786): default
category `sewer`, and the unfiltered list is kept when the filter empties
it. -/
def catStepM (clientCat : Option String) (ms : List (Product × ℕ)) :
    List (Product × ℕ) :=
  let eff : Option String := some (clientCat.getD "sewer")
  let f := filter_by_category (fun m => m.1) ms eff
  if !f.isEmpty then f else ms

def detachStepM (flag : Bool) (ms : List (Product × ℕ)) : List (Product × ℕ) :=
  if flag then
    let f := ms.filter fun m => is_coupling_detachable m.1.name
    if !f.isEmpty then f else ms
  else ms

def reducerStepM (flag : Bool) (ms : List (Product × ℕ)) : List (Product × ℕ) :=
  if flag then
    let f := ms.filter fun m => is_reducer m.1.name
    if !f.isEmpty then f else ms
  else ms

/-- Stable descending sort by score (Python `list.sort(key=..., reverse=True)`
is stable), as a structural insertion sort. -/
def insertDesc (x : Product × ℕ) : List (Product × ℕ) → List (Product × ℕ)
  | [] => [x]
  | y :: ys => if y.2 ≤ x.2 then x :: y :: ys else y :: insertDesc x ys

def sortByScoreDesc (ms : List (Product × ℕ)) : List (Product × ℕ) :=
  ms.foldr insertDesc []

/-- The LLM fallback of the emptied-filters guard (matching.py, 830-857). -/
def level5Guard (products : List Product) (llm : Option LlmMatcher)
    (client_name : String) : MatchResult :=
  match llm with
  | some l =>
    match l.matchQuery client_name with
    | some r =>
      if r.sku ≠ "" then
        match products.find? (fun p => p.sku == r.sku) with
        | some p =>
          { product_id := some p.id, product_sku := some p.sku,
            product_name := some p.name, confidence := r.confidence.getD 70,
            match_type := "llm_match", needs_review := true,
            pack_qty := p.pack_qty }
        | none => notFound
      else notFound
    | none => notFound
  | none => notFound

/-- The low-confidence LLM double check (matching.py, 864-900). -/
def llmCheck (products : List Product) (llm : Option LlmMatcher)
    (client_name : String) (clientFitting : Option (List Nat))
    (clientType : Option String) (conf : ℚ) : Option MatchResult :=
  match llm with
  | none => none
  | some l =>
    match l.matchQuery client_name with
    | none => none
    | some r =>
      if r.sku = "" then none
      else
        let llmConf := r.confidence.getD 0
        if conf < llmConf then
          let prod0 := products.find? fun p => p.sku == r.sku
          let prod1 : Option Product :=
            match prod0, clientFitting with
            | some p, some cf =>
              (match extract_fitting_size p.name with
               | some pf => if pf ≠ cf then none else some p
               | none => some p)
            | x, _ => x
          let prod2 : Option Product :=
            match prod1, clientType with
            | some p, some t =>
              if CRITICAL_TYPES.contains t then
                match extract_product_type p.name with
                | some pt => if pt ≠ t then none else some p
                | none => some p
              else some p
            | x, _ => x
          match prod2 with
          | some p =>
            some { product_id := some p.id, product_sku := some p.sku,
                   product_name := some p.name, confidence := llmConf,
                   match_type := "llm_match", needs_review := llmConf < 80,
                   pack_qty := p.pack_qty }
          | none => none
        else none

/-- The outer LLM level with its post-validation (matching.py, 912-984),
falling back to `not_found`. -/
def llmLevel (products : List Product) (llm : Option LlmMatcher)
    (client_name : String) : MatchResult :=
  match llm with
  | none => notFound
  | some l =>
    if client_name = "" then notFound
    else
      match l.matchQuery client_name with
      | none => notFound
      | some r =>
        if r.sku = "" then notFound
        else
          let prod0 := products.find? fun p => p.sku == r.sku
          let prod1 : Option Product :=
            match prod0, extract_pipe_size client_name with
            | some p, some cs =>
              (match extract_pipe_size p.name with
               | some ps => if ps ≠ cs then none else some p
               | none => some p)
            | x, _ => x
          let prod2 : Option Product :=
            match prod1, extract_fitting_size client_name with
            | some p, some cf =>
              (match extract_fitting_size p.name with
               | some pf => if pf ≠ cf then none else some p
               | none => some p)
            | x, _ => x
          let prod3 : Option Product :=
            match prod2, extract_thread_size client_name with
            | some p, some ct =>
              (match extract_thread_size p.name with
               | some pt => if pt ≠ ct then none else some p
               | none => some p)
            | x, _ => x
          let prod4 : Option Product :=
            match prod3, extract_product_type client_name with
            | some p, some t =>
              if CRITICAL_TYPES.contains t then
                match extract_product_type p.name with
                | some pt => if pt ≠ t then none else some p
                | none => some p
              else some p
            | x, _ => x
          match prod4 with
          | some p =>
            { product_id := some p.id, product_sku := some p.sku,
              product_name := some p.name, confidence := r.confidence.getD 70,
              match_type := "llm_match",
              needs_review := r.confidence.getD 70 < 80,
              pack_qty := p.pack_qty }
          | none => notFound

/-- Level 5 of `match_item` when the candidate list is non-empty
(matching.py, lines 752-910).  `Except` carries the `IndexError` raised by
`matches[0]` on an empty list (line 804). -/
def level5Post (products : List Product) (llm : Option LlmMatcher)
    (client_name : String)
    (clientFitting : Option (List Nat)) (clientThreadSize : Option (Nat × String))
    (clientCat : Option String) (clientType : Option String)
    (clientAngle : Option Nat) (clampMm : Option Nat) (wantsEco : Bool)
    (isDetachable : Bool) (isReducer : Bool)
    (matches0 : List (Product × ℕ)) : Except PyErr MatchResult :=
  let clientThread := extract_thread_type client_name
  let matches1 := typeStepM clientType matches0
  let matches2 := angleStepM clientAngle matches1
  let matches3 := catStepM clientCat matches2
  let matches4 := detachStepM isDetachable matches3
  let matches5 := reducerStepM isReducer matches4
  let sorted := sortByScoreDesc matches5
  match sorted with
  | [] => .error .indexErr
  | (_, best0) :: _ =>
    let top0 := sorted.filter fun m => best0 ≤ m.2 + 2
    let top1 := filter_by_thread top0 clientThread
    let top2 := filter_by_fitting_size top1 clientFitting
    let top3 := filter_by_thread_size top2 clientThreadSize
    let top4 : List (Product × ℕ) :=
      match clampMm with
      | some mm =>
        if 1 < top3.length then
          let f := top3.filter fun m => clamp_fits_mm m.1.name mm
          if !f.isEmpty then f else top3
        else top3
      | none => top3
    let top5 : List (Product × ℕ) :=
      if !wantsEco && 1 < top4.length then
        let f := top4.filter fun m => !is_eco_product m.1.name
        if !f.isEmpty then f else top4
      else top4
    match top5 with
    | [] => .ok (level5Guard products llm client_name)
    | (best, bestR) :: _ =>
      let conf0 : ℚ := qMul confidence_fuzzy_name (mkRat bestR 100)
      let conf := if 1 < matches5.length && !wantsEco then min (qAdd conf0 5) 95 else conf0
      if conf < 75 then
        match llmCheck products llm client_name clientFitting clientType conf with
        | some res => .ok res
        | none => .ok (mkFuzzyName best conf)
      else .ok (mkFuzzyName best conf)

def match_item (products : List Product) (mappings : List (String × MappingRow))
    (llm : Option LlmMatcher) (client_sku : String) (client_name : String) :
    Except PyErr MatchResult :=
  let normSku := normalize_sku client_sku
  let normName := normalize_name client_name
  match exactSkuFind products normSku with
  | some p => .ok (mkExactSku p)
  | none =>
  match (if normName ≠ "" then exactNameFind products normName else none) with
  | some p => .ok (mkExactName p)
  | none =>
  match cachedFind products mappings normSku with
  | some p => .ok (mkCached p)
  | none =>
  match fuzzySkuBest products normSku with
  | (some p, r) => .ok (mkFuzzySku p r)
  | (none, _) =>
    if normName ≠ "" then
      let clientSize := extract_pipe_size client_name
      let clientFitting := extract_fitting_size client_name
      let clientThreadSize := extract_thread_size client_name
      let clientCat := detect_client_category client_name
      let clientType := extract_product_type client_name
      let clientAngle := extract_angle client_name
      let clampMm := extract_mm_from_clamp client_name
      let wantsEco := is_eco_product client_name
      let isDetachable := is_coupling_detachable client_name
      let isReducer := is_reducer client_name
      let matches0 := level5Collect products normName clientSize clientThreadSize clientFitting
      if matches0.isEmpty then .ok (llmLevel products llm client_name)
      else
        level5Post products llm client_name clientFitting clientThreadSize
          clientCat clientType clientAngle clampMm wantsEco isDetachable
          isReducer matches0
    else .ok (llmLevel products llm client_name)

/-! ## `HybridStrategy.match` (matching_strategies/hybrid.py)

`semantic` models the embedding-matcher results (product id, similarity);
a failing or empty search is the empty list, in which case the whole
catalogue is scanned.  rapidfuzz scores are exact rationals.  The elements
of the candidate list are `(product, final_score, match_source)` triples
as in the source. -/

/-- The strict hard gates of `HybridStrategy.match` (hybrid.py, lines
102-163): pipe size, thread size (a product *without* a thread size is
discarded), fitting size, color. -/
def hybridGate (clientSize : Option (Nat × Nat))
    (clientThreadSize : Option (Nat × String))
    (clientFitting : Option (List Nat)) (clientColor : Option String)
    (p : Product) : Bool :=
  (match clientSize with
   | none => true
   | some cs =>
     match extract_pipe_size p.name with
     | some ps => ps = cs
     | none => true) &&
  (match clientThreadSize with
   | none => true
   | some ct =>
     match extract_thread_size p.name with
     | some pt => pt = ct
     | none => false) &&
  (match clientFitting with
   | none => true
   | some cf =>
     match extract_fitting_size p.name with
     | some pf =>
       let nc := normalize_equal_sizes cf
       let np := normalize_equal_sizes pf
       match nc with
       | [c0] => np.headD 0 = c0
       | _ => np = nc
     | none => true) &&
  (match clientColor with
   | none => true
   | some cc =>
     (match extract_color p.name with
      | some pc => cc = pc
      | none => true) &&
     !(cc = "white" && startsWithStr p.sku "202") &&
     !(cc = "gray" && startsWithStr p.sku "403") &&
     !(cc = "red" && (startsWithStr p.sku "202" || startsWithStr p.sku "403")))

/-- `semantic_scores.get(str(id).lower(), 0.0)`: the dict is built by
iteration, so a later duplicate key wins. -/
def semScore (semantic : List (String × ℚ)) (p : Product) : ℚ :=
  (((semantic.map fun x => (pyLower x.1, x.2)).reverse.lookup (pyLower p.id)).getD 0)

/-- Candidate collection with scoring of `HybridStrategy.match`
(hybrid.py, lines 96-189). -/
def hybridCollect (semantic : List (String × ℚ)) (candidates : List Product)
    (normName : String) (clientSize : Option (Nat × Nat))
    (clientThreadSize : Option (Nat × String)) (clientFitting : Option (List Nat))
    (clientColor : Option String) : List (Product × ℚ × String) :=
  candidates.filterMap fun p =>
    if hybridGate clientSize clientThreadSize clientFitting clientColor p then
      let pn := normalize_name p.name
      let fuzzyScore := qDivNat (qAdd (tokenSortQ normName pn) (tokenSetQ normName pn)) 2
      let sem := semScore semantic p
      let fs : ℚ × String :=
        if mkRat 85 100 < sem ∧ 40 < fuzzyScore then
          (max fuzzyScore (qMul sem 100), "semantic_boost")
        else (fuzzyScore, "fuzzy")
      if (fuzzy_threshold : ℚ) ≤ fs.1 then some (p, fs.1, fs.2) else none
    else none

/-- Python `max(ms, key=lambda x: x[1])`: the first maximal element. -/
def maxByScore (ms : List (Product × ℚ × String)) : Option (Product × ℚ × String) :=
  match ms with
  | [] => none
  | m :: rest => some (rest.foldl (fun acc x => if acc.2.1 < x.2.1 then x else acc) m)

/-- Candidate pre-filter from the semantic search (hybrid.py, lines
57-94): intersect with the catalogue by id; fall back to the whole
catalogue when the search is empty or nothing intersects. -/
def hybridCandidates (semantic : List (String × ℚ)) (products : List Product) :
    List Product :=
  if !semantic.isEmpty then
    let filtered := products.filter fun p =>
      (semantic.map fun x => pyLower x.1).contains (pyLower p.id)
    if !filtered.isEmpty then filtered else products
  else products

/-- Critical-type post filter of `HybridStrategy.match` (hybrid.py, lines
197-206): `none` when a critical type has no same-type candidate. -/
def hybridTypeStep (clientType : Option String)
    (ms : List (Product × ℚ × String)) : Option (List (Product × ℚ × String)) :=
  match clientType with
  | none => some ms
  | some t =>
    let f := ms.filter fun m => extract_product_type m.1.name = some t
    if !f.isEmpty then some f
    else if CRITICAL_TYPES.contains t then none
    else some ms

/-- Angle post filter (hybrid.py, lines 208-218). -/
def hybridAngleStep (clientAngle : Option Nat)
    (ms : List (Product × ℚ × String)) : List (Product × ℚ × String) :=
  match clientAngle with
  | none => ms
  | some a =>
    match normalize_angle (some a) with
    | some na =>
      let f := ms.filter fun m => extract_angle m.1.name = some na
      if !f.isEmpty then f else ms
    | none => ms

/-- Category post filter (hybrid.py, lines 220-224): like `catStepM`,
the unfiltered list is kept when the category filter empties it. -/
def hybridCatStep (clientCat : Option String)
    (ms : List (Product × ℚ × String)) : List (Product × ℚ × String) :=
  let f := filter_by_category (fun m => m.1) ms (some (clientCat.getD "sewer"))
  if !f.isEmpty then f else ms

/-- `HybridStrategy.match` (hybrid.py, lines 37-243). -/
def hybrid_match (semantic : List (String × ℚ)) (products : List Product)
    (client_name : String) : Option MatchResult :=
  if client_name = "" then none
  else
    let ms := hybridCollect semantic (hybridCandidates semantic products)
      (normalize_name client_name) (extract_pipe_size client_name)
      (extract_thread_size client_name) (extract_fitting_size client_name)
      (extract_color client_name)
    if ms.isEmpty then none
    else
      match hybridTypeStep (extract_product_type client_name) ms with
      | none => none
      | some ms1 =>
        match maxByScore (hybridCatStep (detect_client_category client_name)
            (hybridAngleStep (extract_angle client_name) ms1)) with
        | none => none
        | some (p, score, _) =>
          some { product_id := some p.id, product_sku := some p.sku,
                 product_name := some p.name, confidence := score,
                 match_type := "fuzzy_name", needs_review := score < 90,
                 pack_qty := p.pack_qty }

/-! ## Auto-save (matching.py, lines 986-1064) -/

/-- The row handed to `save_mapping` (which builds the upsert data with
`verified` as passed; `auto_save_high_confidence` passes `False`). -/
structure SaveData where
  client_id : String
  client_sku : String
  product_id : String
  confidence : ℚ
  match_type : String
  verified : Bool
deriving Repr, DecidableEq

/-- `auto_save_high_confidence` (matching.py, lines 1040-1064).  The
`upsert` oracle returns `false` when the upsert raises; the exception is
swallowed (`except Exception: pass`) and the function reports `false`. -/
def auto_save_high_confidence (upsert : SaveData → Bool)
    (client_id client_sku : String) (m : MatchResult) : Bool :=
  match m.product_id with
  | some pid =>
    if confidence_exact_name ≤ m.confidence &&
        (m.match_type = "exact_sku" || m.match_type = "exact_name" ||
         m.match_type = "cached_mapping") then
      upsert { client_id := client_id, client_sku := client_sku,
               product_id := pid, confidence := m.confidence,
               match_type := m.match_type, verified := false }
    else false
  | none => false

/-- One item of `match_order_items` (matching.py, lines 996-1014):
match, then auto-save only when the flag is set and the client SKU is
non-empty; the result pair is `(match, auto_saved)`. -/
def match_order_item (products : List Product)
    (mappings : List (String × MappingRow)) (llm : Option LlmMatcher)
    (upsert : SaveData → Bool) (auto_save : Bool) (client_id : String)
    (client_sku client_name : String) : Except PyErr (MatchResult × Bool) := do
  let m ← match_item products mappings llm client_sku client_name
  let saved :=
    if auto_save && client_sku ≠ "" then
      auto_save_high_confidence upsert client_id client_sku m
    else false
  return (m, saved)

/-! # Theorems -/

/-! ## Helper lemmas -/

theorem char_toNat_ofNat (n : ℕ) (h : n < 55296) : (Char.ofNat n).toNat = n := by
  unfold Char.ofNat
  rw [dif_pos (Or.inl h)]
  rfl

theorem pyUpperChar_idem (c : Char) :
    pyUpperChar (pyUpperChar c) = pyUpperChar c := by
  unfold pyUpperChar
  by_cases h1 : 97 ≤ c.toNat ∧ c.toNat ≤ 122
  · rw [if_pos h1]
    have ht : (Char.ofNat (c.toNat - 32)).toNat = c.toNat - 32 :=
      char_toNat_ofNat _ (by omega)
    rw [if_neg (by omega), if_neg (by omega), if_neg (by omega)]
  · rw [if_neg h1]
    by_cases h2 : 1072 ≤ c.toNat ∧ c.toNat ≤ 1103
    · rw [if_pos h2]
      have ht : (Char.ofNat (c.toNat - 32)).toNat = c.toNat - 32 :=
        char_toNat_ofNat _ (by omega)
      rw [if_neg (by omega), if_neg (by omega), if_neg (by omega)]
    · rw [if_neg h2]
      by_cases h3 : c.toNat = 1105
      · rw [if_pos h3]
        have ht : (Char.ofNat 1025).toNat = 1025 := char_toNat_ofNat _ (by omega)
        rw [if_neg (by omega), if_neg (by omega), if_neg (by omega)]
      · rw [if_neg h3, if_neg h1, if_neg h2, if_neg h3]

/-- Heads of `dropWhile` fail the predicate. -/
theorem dropWhile_head_false {p : Char → Bool} {l : List Char} {a : Char}
    {as : List Char} (h : l.dropWhile p = a :: as) : p a = false := by
  induction l with
  | nil => simp at h
  | cons x xs ih =>
    by_cases hx : p x
    · rw [List.dropWhile_cons_of_pos hx] at h
      exact ih h
    · rw [List.dropWhile_cons_of_neg hx] at h
      cases h
      simpa using hx

theorem lstripZeros_idem (l : List Char) :
    lstripZeros (lstripZeros l) = lstripZeros l := by
  unfold lstripZeros
  cases h : l.dropWhile (fun c => c = '0') with
  | nil => simp
  | cons a as =>
    have ha : (fun c : Char => decide (c = '0')) a = false := dropWhile_head_false h
    rw [List.dropWhile_cons_of_neg (by simpa using ha)]

theorem lstripZeros_mem (l : List Char) (x : Char) (hx : x ∈ lstripZeros l) :
    x ∈ l ∨ x = '0' := by
  unfold lstripZeros at hx
  cases h : l.dropWhile (fun c => c = '0') with
  | nil => rw [h] at hx; right; simpa using hx
  | cons a as =>
    rw [h] at hx
    left
    exact (List.dropWhile_sublist (fun c : Char => decide (c = '0'))).subset (h ▸ hx)

theorem lstripZeros_ne_nil (l : List Char) : lstripZeros l ≠ [] := by
  unfold lstripZeros
  cases h : l.dropWhile (fun c => c = '0') <;> simp

theorem map_eq_self_of_mem {l : List Char} {f : Char → Char}
    (h : ∀ x ∈ l, f x = x) : l.map f = l := by
  induction l with
  | nil => rfl
  | cons a as ih =>
    simp only [List.map_cons]
    rw [h a (by simp), ih (fun x hx => h x (by simp [hx]))]

/-! ## C7 -/

/-- The claim is refuted for `normalize_name`: the final collapse of
punctuation to spaces can create a new synonym-expansion site, so a second
pass rewrites further.  On `"вн,рез"` the first pass yields `"вн рез"`,
the second expands the thread synonym to `"внутренняя резьба"`. -/
theorem C7_name_not_idempotent :
    normalize_name (normalize_name "вн,рез") ≠ normalize_name "вн,рез" := by decide

/-- C7 amended: `normalize_sku` is idempotent for every string;
`normalize_name` is not (see the counterexample). -/
theorem C7_sku_idempotent (s : String) :
    normalize_sku (normalize_sku s) = normalize_sku s := by
  by_cases hs : s = ""
  · subst hs; rfl
  · unfold normalize_sku
    rw [if_neg hs]
    set L := (s.data.map pyUpperChar).filter (fun c => !isSkuSep c) with hL
    have hmem : ∀ x ∈ lstripZeros L, pyUpperChar x = x ∧ isSkuSep x = false := by
      intro x hx
      rcases lstripZeros_mem L x hx with hxl | hx0
      · rw [hL] at hxl
        rcases List.mem_filter.mp hxl with ⟨hmap, hsep⟩
        rcases List.mem_map.mp hmap with ⟨c, _, rfl⟩
        exact ⟨pyUpperChar_idem c, by simpa using hsep⟩
      · subst hx0; exact ⟨by decide, by decide⟩
    have hne : String.mk (lstripZeros L) ≠ "" := by
      simpa [String.ext_iff] using lstripZeros_ne_nil L
    rw [if_neg hne]
    have hmap : (lstripZeros L).map pyUpperChar = lstripZeros L :=
      map_eq_self_of_mem (fun x hx => (hmem x hx).1)
    have hfilter :
        ((lstripZeros L).map pyUpperChar).filter (fun c => !isSkuSep c) =
          lstripZeros L := by
      rw [hmap]
      exact List.filter_eq_self.mpr (fun x hx => by simp [(hmem x hx).2])
    simp only [hfilter]
    rw [lstripZeros_idem]

/-! ## C1, C2: the level-5 IndexError -/

instance : DecidableEq (Except PyErr MatchResult) := fun a b =>
  match a, b with
  | .ok x, .ok y =>
    if h : x = y then isTrue (by rw [h])
    else isFalse (fun he => h (by cases he; rfl))
  | .error x, .error y =>
    if h : x = y then isTrue (by rw [h])
    else isFalse (fun he => h (by cases he; rfl))
  | .ok _, .error _ => isFalse (fun he => by cases he)
  | .error _, .ok _ => isFalse (fun he => by cases he)

set_option maxRecDepth 100000 in
/-- C1: `match_item` is claimed never to raise (except on catalog load),
in particular when the critical-type filter empties the candidate list.
The code contradicts this (and its own test
`test_type_filter_no_index_error`): for the query "Тройник 110" against a
catalogue whose only fuzzy candidate is of a different critical type, the
type filter sets `matches = []` (line 769) and `matches[0][1]` at line 804
raises `IndexError`. -/
theorem C1_match_item_raises :
    match_item [{ id := "p1", sku := "202111", name := "Крестовина (тройник) 110" }]
      [] none "" "Тройник 110" = .error .indexErr := by decide

set_option maxRecDepth 100000 in
/-- C2: with a critical client type ("отвод") and no candidate of that
type, the final result is claimed to be `not_found`; instead the code
raises `IndexError` at line 804 (the `HybridStrategy` rewrite in
`matching_strategies/hybrid.py` returns `None` here as claimed, cf.
`hybrid_match`). -/
theorem C2_critical_type_crash :
    match_item [{ id := "p2", sku := "202999", name := "Крестовина (отвод) 110" }]
      [] none "" "Отвод 110" = .error .indexErr := by decide

/-! ## C3 -/

set_option maxRecDepth 200000 in
/-- C3 counterexample: in `match_item` (level 5), the thread-size gate at
matching.py lines 721-725 only discards a candidate whose extracted thread
size is present and different; a candidate *without* a thread size
survives and can be returned.  For the query "Муфта НР 32×1\"" (thread
size 32×1") against a catalogue whose only candidate is the plain
"Муфта ППР 32" (no thread size), the plain coupling is returned as
`fuzzy_name`. -/
theorem C3_thread_gate_bypassed :
    extract_thread_size "Муфта НР 32×1\"" = some (32, "1") ∧
    extract_thread_size "Муфта ППР 32" = none ∧
    match_item [{ id := "p3", sku := "101932", name := "Муфта ППР 32" }] []
      none "" "Муфта НР 32×1\"" =
      .ok { product_id := some "p3", product_sku := some "101932",
            product_name := some "Муфта ППР 32", confidence := mkRat 304 5,
            match_type := "fuzzy_name", needs_review := true, pack_qty := 1 } :=
  ⟨by decide, by decide, by decide⟩

theorem foldl_choice_mem {α : Type} (f : α → α → α)
    (hf : ∀ x y, f x y = x ∨ f x y = y) :
    ∀ (l : List α) (acc : α), l.foldl f acc = acc ∨ l.foldl f acc ∈ l := by
  intro l
  induction l with
  | nil => intro acc; left; rfl
  | cons b bs ih =>
    intro acc
    rcases ih (f acc b) with h | h
    · rcases hf acc b with hb | hb
      · left; rw [List.foldl_cons, h, hb]
      · right; rw [List.foldl_cons, h, hb]; exact List.mem_cons_self b bs
    · right
      rw [List.foldl_cons]
      exact List.mem_cons_of_mem b h

theorem maxByScore_mem {ms : List (Product × ℚ × String)}
    {m : Product × ℚ × String} (h : maxByScore ms = some m) : m ∈ ms := by
  cases ms with
  | nil => cases h
  | cons a rest =>
    unfold maxByScore at h
    have hm := Option.some_injective _ h
    have := foldl_choice_mem (fun acc x => if acc.2.1 < x.2.1 then x else acc)
      (fun x y => by by_cases hc : x.2.1 < y.2.1 <;> simp [hc]) rest a
    rcases this with h1 | h1
    · rw [hm] at h1
      rw [h1]
      exact List.mem_cons_self a rest
    · rw [hm] at h1
      exact List.mem_cons_of_mem a h1

theorem filter_by_category_subset {α : Type} (getP : α → Product)
    (ms : List α) (c : Option String) :
    ∀ x ∈ filter_by_category getP ms c, x ∈ ms := by
  intro x hx
  simp only [filter_by_category] at hx
  split_ifs at hx <;>
    first
      | exact hx
      | exact (List.mem_filter.mp hx).1

theorem hybridTypeStep_subset {t : Option String}
    {ms ms1 : List (Product × ℚ × String)}
    (h : hybridTypeStep t ms = some ms1) : ∀ x ∈ ms1, x ∈ ms := by
  intro x hx
  unfold hybridTypeStep at h
  cases t with
  | none => cases h; exact hx
  | some ty =>
    simp only at h
    split_ifs at h with h1 h2
    · cases h; exact (List.mem_filter.mp hx).1
    · cases h; exact hx

theorem hybridAngleStep_subset (a : Option Nat)
    (ms : List (Product × ℚ × String)) :
    ∀ x ∈ hybridAngleStep a ms, x ∈ ms := by
  intro x hx
  unfold hybridAngleStep at hx
  cases a with
  | none => exact hx
  | some av =>
    simp only [normalize_angle] at hx
    split_ifs at hx
    · exact (List.mem_filter.mp hx).1
    · exact hx
    · exact (List.mem_filter.mp hx).1
    · exact hx

theorem hybridCatStep_subset (c : Option String)
    (ms : List (Product × ℚ × String)) :
    ∀ x ∈ hybridCatStep c ms, x ∈ ms := by
  intro x hx
  unfold hybridCatStep at hx
  simp only at hx
  split_ifs at hx <;>
    first
      | exact filter_by_category_subset _ ms _ x hx
      | exact hx

theorem hybridCandidates_subset (semantic : List (String × ℚ))
    (products : List Product) :
    ∀ p ∈ hybridCandidates semantic products, p ∈ products := by
  intro p hp
  unfold hybridCandidates at hp
  simp only at hp
  split_ifs at hp <;>
    first
      | exact (List.mem_filter.mp hp).1
      | exact hp

theorem hybridCollect_mem {semantic : List (String × ℚ)} {cands : List Product}
    {normName : String} {cs : Option (Nat × Nat)} {cts : Option (Nat × String)}
    {cfs : Option (List Nat)} {cc : Option String} {m : Product × ℚ × String}
    (h : m ∈ hybridCollect semantic cands normName cs cts cfs cc) :
    m.1 ∈ cands ∧ hybridGate cs cts cfs cc m.1 = true := by
  unfold hybridCollect at h
  rcases List.mem_filterMap.mp h with ⟨q, hq, hf⟩
  by_cases hg : hybridGate cs cts cfs cc q
  · rw [if_pos hg] at hf
    simp only at hf
    split_ifs at hf <;> cases hf <;> exact ⟨hq, hg⟩
  · rw [if_neg hg] at hf
    cases hf

theorem hybridGate_thread {cs : Option (Nat × Nat)} {t : Nat × String}
    {cfs : Option (List Nat)} {cc : Option String} {p : Product}
    (hg : hybridGate cs (some t) cfs cc p = true) :
    extract_thread_size p.name = some t := by
  unfold hybridGate at hg
  simp only [Bool.and_eq_true] at hg
  have h2 := hg.1.1.2
  cases he : extract_thread_size p.name with
  | none => rw [he] at h2; cases h2
  | some pt =>
    rw [he] at h2
    simp only [decide_eq_true_eq] at h2
    rw [h2]

set_option maxRecDepth 200000 in
/-- C3 amended: the strict thread-size gate *does* hold in the
`HybridStrategy.match` rewrite (hybrid.py, lines 112-122): whenever the
client name carries a thread size, any product it returns has exactly
that thread size; `MatchingService.match_item` (the path actually wired
to the service) only discards candidates whose extracted thread size is
present and different. -/
theorem C3_amended_hybrid_thread_strict (semantic : List (String × ℚ))
    (products : List Product) (client_name : String) (t : Nat × String)
    (res : MatchResult)
    (hc : extract_thread_size client_name = some t)
    (hm : hybrid_match semantic products client_name = some res) :
    ∃ p ∈ products, res.product_sku = some p.sku ∧
      extract_thread_size p.name = some t := by
  unfold hybrid_match at hm
  by_cases hcn : client_name = ""
  · rw [if_pos hcn] at hm; cases hm
  rw [if_neg hcn] at hm
  simp only [hc] at hm
  split_ifs at hm with hempty
  cases hts : hybridTypeStep (extract_product_type client_name)
      (hybridCollect semantic (hybridCandidates semantic products)
        (normalize_name client_name) (extract_pipe_size client_name)
        (some t) (extract_fitting_size client_name)
        (extract_color client_name)) with
  | none => rw [hts] at hm; simp only at hm; cases hm
  | some ms1 =>
    rw [hts] at hm
    simp only at hm
    cases hmax : maxByScore (hybridCatStep (detect_client_category client_name)
        (hybridAngleStep (extract_angle client_name) ms1)) with
    | none => rw [hmax] at hm; simp only at hm; cases hm
    | some best =>
      rw [hmax] at hm
      obtain ⟨p, score, tag⟩ := best
      have hmem := maxByScore_mem hmax
      have hmem1 := hybridCatStep_subset _ _ _ hmem
      have hmem2 := hybridAngleStep_subset _ _ _ hmem1
      have hmem3 := hybridTypeStep_subset hts _ hmem2
      have hcol := hybridCollect_mem hmem3
      refine ⟨p, hybridCandidates_subset _ _ _ hcol.1, ?_, hybridGate_thread hcol.2⟩
      injection hm with h
      rw [← h]

set_option maxRecDepth 400000 in
/-- Witness for the amended C3: a threaded coupling query matched to a
threaded catalogue product by `HybridStrategy.match`. -/
theorem C3_amended_witness :
    ∃ p ∈ ([{ id := "h1", sku := "570232", name := "Муфта ППР НР 32×1\"" }] :
        List Product),
      ({ product_id := some "h1", product_sku := some "570232",
         product_name := some "Муфта ППР НР 32×1\"", confidence := mkRat 250 3,
         match_type := "fuzzy_name", needs_review := true,
         pack_qty := 1 } : MatchResult).product_sku = some p.sku ∧
      extract_thread_size p.name = some (32, "1") :=
  C3_amended_hybrid_thread_strict []
    [{ id := "h1", sku := "570232", name := "Муфта ППР НР 32×1\"" }]
    "Муфта НР 32×1\"" (32, "1") _ (by decide) (by decide)

/-! ## C5 -/

set_option maxRecDepth 200000 in
/-- C5 counterexample: for the query "муфта 32" no category is detected,
so the effective category is `sewer`; the only candidate ("Муфта ППР 32",
SKU 101932) fails the sewer keep-rule, so the strict filter empties the
set — yet `match_item` still returns that candidate as `fuzzy_name`
(confidence 80) instead of no match. -/
theorem C5_sewer_filter_falls_back :
    detect_client_category "муфта 32" = none ∧
    sewerKeep { id := "p3", sku := "101932", name := "Муфта ППР 32" } = false ∧
    match_item [{ id := "p3", sku := "101932", name := "Муфта ППР 32" }] []
      none "" "муфта 32" =
      .ok { product_id := some "p3", product_sku := some "101932",
            product_name := some "Муфта ППР 32", confidence := 80,
            match_type := "fuzzy_name", needs_review := false, pack_qty := 1 } :=
  ⟨by decide, by decide, by decide⟩

/-- C5 amended: the sewer branch of `filter_by_category` is itself strict
(it returns exactly the 202/`серый`-and-not-`рифлен` subset, possibly
empty), but the category step of the matching code keeps the unfiltered
candidate list whenever that subset is empty, so a non-sewer product can
still be returned. -/
theorem C5_amended_sewer_strict_only_in_filter (ms : List (Product × ℕ))
    (h : ∀ m ∈ ms, sewerKeep m.1 = false) :
    filter_by_category (fun m : Product × ℕ => m.1) ms (some "sewer") =
      [] ∧
    catStepM none ms = ms := by
  have hfil : ms.filter (fun m => sewerKeep m.1) = [] := by
    apply List.filter_eq_nil_iff.mpr
    intro a ha
    simp [h a ha]
  have hcat : filter_by_category (fun m : Product × ℕ => m.1) ms (some "sewer") = [] := by
    unfold filter_by_category
    by_cases he : ms.isEmpty
    · rw [if_pos he]
      exact List.isEmpty_iff.mp he
    · rw [if_neg he, if_neg (by simp), if_neg (by simp), if_neg (by simp),
        if_neg (by simp), if_neg (by simp), if_pos rfl]
      exact hfil
  refine ⟨hcat, ?_⟩
  unfold catStepM
  simp only [Option.getD]
  rw [hcat]
  simp

set_option maxRecDepth 200000 in
/-- Witness for the amended C5: a single non-sewer candidate. -/
theorem C5_amended_witness :
    filter_by_category (fun m : Product × ℕ => m.1)
      [({ id := "p3", sku := "101932", name := "Муфта ППР 32" }, 80)]
      (some "sewer") = [] ∧
    catStepM none [({ id := "p3", sku := "101932", name := "Муфта ППР 32" }, 80)] =
      [({ id := "p3", sku := "101932", name := "Муфта ППР 32" }, 80)] :=
  C5_amended_sewer_strict_only_in_filter
    [({ id := "p3", sku := "101932", name := "Муфта ППР 32" }, 80)]
    (by decide)

/-! ## C6 -/

set_option maxRecDepth 200000 in
/-- C6 counterexample: for the query "Муфта НР 20×1/2\"" against the lone
candidate "Муфта ППР 20", the surviving candidate's score is 70 =
`max(token_sort_ratio, token_set_ratio) = max(56, 70)`, not the claimed
average (56+70)/2 = 63, which is moreover below `fuzzy_threshold` — an
average-scoring matcher would have discarded the candidate. -/
theorem C6_score_is_max_not_average :
    level5Collect [{ id := "p6", sku := "101920", name := "Муфта ППР 20" }]
        (normalize_name "Муфта НР 20×1/2\"")
        (extract_pipe_size "Муфта НР 20×1/2\"")
        (extract_thread_size "Муфта НР 20×1/2\"")
        (extract_fitting_size "Муфта НР 20×1/2\"") =
      [({ id := "p6", sku := "101920", name := "Муфта ППР 20" }, 70)] ∧
    tokenSortInt (normalize_name "Муфта НР 20×1/2\"")
      (normalize_name "Муфта ППР 20") = 56 ∧
    tokenSetInt (normalize_name "Муфта НР 20×1/2\"")
      (normalize_name "Муфта ППР 20") = 70 ∧
    mkRat (56 + 70) 2 < (fuzzy_threshold : ℚ) :=
  ⟨by decide, by decide, by decide, by decide⟩

/-- C6 amended: in `match_item` (level 5) every surviving candidate's
score is `max(token_sort_ratio, token_set_ratio)` (fuzzywuzzy integers)
over the normalized names, and is at least `fuzzy_threshold`; the
averaged formula of the claim is used only by the `HybridStrategy`
rewrite in `matching_strategies/hybrid.py`. -/
theorem C6_amended_level5_score_is_max (products : List Product)
    (normName : String) (cs : Option (Nat × Nat)) (cts : Option (Nat × String))
    (cfs : Option (List Nat)) (p : Product) (r : ℕ)
    (h : (p, r) ∈ level5Collect products normName cs cts cfs) :
    p ∈ products ∧
    r = max (tokenSortInt normName (normalize_name p.name))
        (tokenSetInt normName (normalize_name p.name)) ∧
    fuzzy_threshold ≤ r := by
  unfold level5Collect at h
  rcases List.mem_filterMap.mp h with ⟨q, hq, hf⟩
  by_cases hg : level5Gate cs cts cfs q
  · rw [if_pos hg] at hf
    simp only at hf
    split_ifs at hf with ht
    injection hf with hf2
    rw [Prod.mk.injEq] at hf2
    obtain ⟨h1, h2⟩ := hf2
    subst h1
    subst h2
    exact ⟨hq, rfl, ht⟩
  · rw [if_neg hg] at hf
    cases hf

set_option maxRecDepth 400000 in
/-- Witness for the amended C6 at the counterexample input. -/
theorem C6_amended_witness :
    ({ id := "p6", sku := "101920", name := "Муфта ППР 20" } : Product) ∈
      [({ id := "p6", sku := "101920", name := "Муфта ППР 20" } : Product)] ∧
    70 = max (tokenSortInt (normalize_name "Муфта НР 20×1/2\"")
        (normalize_name "Муфта ППР 20"))
      (tokenSetInt (normalize_name "Муфта НР 20×1/2\"")
        (normalize_name "Муфта ППР 20")) ∧
    fuzzy_threshold ≤ 70 :=
  C6_amended_level5_score_is_max
    [{ id := "p6", sku := "101920", name := "Муфта ППР 20" }]
    (normalize_name "Муфта НР 20×1/2\"")
    (extract_pipe_size "Муфта НР 20×1/2\"")
    (extract_thread_size "Муфта НР 20×1/2\"")
    (extract_fitting_size "Муфта НР 20×1/2\"")
    { id := "p6", sku := "101920", name := "Муфта ППР 20" } 70 (by decide)

/-! ## C4 -/

/-- C4: the strategy cascade of `match_item` evaluates ExactSku,
ExactName, CachedMapping, FuzzySku, Hybrid, LLM in this order and the
first non-null result wins: (a) an exact-SKU hit is returned untouched;
(b) with no exact SKU/name hit, a cached mapping that resolves in the
catalogue wins (confidence 100, no review) over everything later;
(c) `not_found` implies every one of the first four strategies produced
nothing. -/
theorem C4_strategy_order (products : List Product)
    (mappings : List (String × MappingRow)) (llm : Option LlmMatcher)
    (client_sku client_name : String) :
    (∀ p, exactSkuFind products (normalize_sku client_sku) = some p →
      match_item products mappings llm client_sku client_name =
        .ok (mkExactSku p)) ∧
    (exactSkuFind products (normalize_sku client_sku) = none →
      (normalize_name client_name ≠ "" →
        exactNameFind products (normalize_name client_name) = none) →
      ∀ p, cachedFind products mappings (normalize_sku client_sku) = some p →
        match_item products mappings llm client_sku client_name =
          .ok (mkCached p) ∧
        (mkCached p).match_type = "cached_mapping" ∧
        (mkCached p).confidence = 100 ∧ (mkCached p).needs_review = false) ∧
    (∀ res, match_item products mappings llm client_sku client_name = .ok res →
      res.match_type = "not_found" →
      exactSkuFind products (normalize_sku client_sku) = none ∧
      (normalize_name client_name ≠ "" →
        exactNameFind products (normalize_name client_name) = none) ∧
      cachedFind products mappings (normalize_sku client_sku) = none ∧
      (fuzzySkuBest products (normalize_sku client_sku)).1 = none) := by
  refine ⟨?_, ?_, ?_⟩
  · intro p hp
    simp only [match_item]
    rw [hp]
  · intro h1 h2 p hp
    have hname : (if normalize_name client_name ≠ "" then
        exactNameFind products (normalize_name client_name) else none) = none := by
      by_cases hn : normalize_name client_name = ""
      · simp [hn]
      · rw [if_pos hn]
        exact h2 hn
    refine ⟨?_, rfl, rfl, rfl⟩
    simp only [match_item]
    rw [h1]
    simp only
    rw [hname]
    simp only
    rw [hp]
  · intro res hres hnf
    simp only [match_item] at hres
    cases h1 : exactSkuFind products (normalize_sku client_sku) with
    | some p =>
      rw [h1] at hres
      simp only at hres
      injection hres with h
      rw [← h] at hnf
      simp [mkExactSku] at hnf
    | none =>
      rw [h1] at hres
      simp only at hres
      cases h2 : (if normalize_name client_name ≠ "" then
          exactNameFind products (normalize_name client_name) else none) with
      | some p =>
        rw [h2] at hres
        simp only at hres
        injection hres with h
        rw [← h] at hnf
        simp [mkExactName] at hnf
      | none =>
        rw [h2] at hres
        simp only at hres
        cases h3 : cachedFind products mappings (normalize_sku client_sku) with
        | some p =>
          rw [h3] at hres
          simp only at hres
          injection hres with h
          rw [← h] at hnf
          simp [mkCached] at hnf
        | none =>
          rw [h3] at hres
          simp only at hres
          cases h4 : fuzzySkuBest products (normalize_sku client_sku) with
          | mk fst snd =>
            cases fst with
            | some p =>
              rw [h4] at hres
              simp only at hres
              injection hres with h
              rw [← h] at hnf
              simp [mkFuzzySku] at hnf
            | none =>
              refine ⟨rfl, ?_, rfl, rfl⟩
              intro hne
              rw [if_pos hne] at h2
              exact h2

/-- Witness for C4 (clause (b)): with no exact SKU or name match, the
cached mapping for the normalized client SKU wins. -/
theorem C4_witness :
    match_item [{ id := "aaa", sku := "XYZ", name := "Кран шаровой" }]
      [("77", { product_id := "aaa" })] none "0-77" "" =
      .ok (mkCached { id := "aaa", sku := "XYZ", name := "Кран шаровой" }) ∧
    (mkCached { id := "aaa", sku := "XYZ", name := "Кран шаровой" }).match_type = "cached_mapping" ∧
    (mkCached { id := "aaa", sku := "XYZ", name := "Кран шаровой" }).confidence = 100 ∧
    (mkCached { id := "aaa", sku := "XYZ", name := "Кран шаровой" }).needs_review = false :=
  (C4_strategy_order [{ id := "aaa", sku := "XYZ", name := "Кран шаровой" }]
    [("77", { product_id := "aaa" })] none "0-77" "").2.1
    (by decide) (fun hne => absurd rfl hne)
    { id := "aaa", sku := "XYZ", name := "Кран шаровой" } (by decide)

/-! ## C8 -/

/-- C8: round-trip over the catalogue.  If product SKUs are unique modulo
`normalize_sku`, then matching a catalogue row's own SKU and name returns
`exact_sku` for exactly that product (confidence 100, no review). -/
theorem C8_roundtrip (products : List Product)
    (mappings : List (String × MappingRow)) (llm : Option LlmMatcher)
    (p : Product) (hp : p ∈ products)
    (huniq : ∀ q ∈ products, normalize_sku q.sku = normalize_sku p.sku → q = p) :
    match_item products mappings llm p.sku p.name = .ok (mkExactSku p) := by
  have hfind : exactSkuFind products (normalize_sku p.sku) = some p := by
    unfold exactSkuFind
    cases hf : products.find?
        (fun q => normalize_sku q.sku == normalize_sku p.sku) with
    | none =>
      exfalso
      have hnone := List.find?_eq_none.mp hf p hp
      simp at hnone
    | some q =>
      have hmem := List.mem_of_find?_eq_some hf
      have hpred := List.find?_some hf
      have heq : normalize_sku q.sku = normalize_sku p.sku := by
        simpa using hpred
      rw [huniq q hmem heq]
  simp only [match_item]
  rw [hfind]

/-- Witness for C8 on a one-row catalogue. -/
theorem C8_witness :
    match_item [{ id := "w8", sku := "202051110R", name := "Труба ПП 110×2000" }]
      [] none "202051110R" "Труба ПП 110×2000" =
      .ok (mkExactSku { id := "w8", sku := "202051110R", name := "Труба ПП 110×2000" }) :=
  C8_roundtrip [{ id := "w8", sku := "202051110R", name := "Труба ПП 110×2000" }]
    [] none { id := "w8", sku := "202051110R", name := "Труба ПП 110×2000" }
    (by decide) (by decide)

/-! ## C10 -/

/-- C10: a verified mapping whose `product_id` does not resolve in the
loaded catalogue is silently skipped: matching proceeds exactly as if the
client had no mappings at all (no exception, no dangling result). -/
theorem C10_dangling_mapping (products : List Product)
    (mappings : List (String × MappingRow)) (llm : Option LlmMatcher)
    (client_sku client_name : String) (mp : MappingRow)
    (hlook : mappings.lookup (normalize_sku client_sku) = some mp)
    (hdangling : products.find? (fun p => p.id == mp.product_id) = none) :
    match_item products mappings llm client_sku client_name =
      match_item products [] llm client_sku client_name := by
  have hc1 : cachedFind products mappings (normalize_sku client_sku) = none := by
    unfold cachedFind
    rw [hlook]
    simpa using hdangling
  have hc2 : cachedFind products [] (normalize_sku client_sku) = none := rfl
  simp only [match_item]
  rw [hc1, hc2]

/-- Witness for C10: a dangling mapping for the normalized SKU `77`. -/
theorem C10_witness :
    match_item [{ id := "aaa", sku := "XYZ", name := "Кран шаровой" }]
      [("77", { product_id := "zzz" })] none "0-77" "" =
      match_item [{ id := "aaa", sku := "XYZ", name := "Кран шаровой" }]
        [] none "0-77" "" :=
  C10_dangling_mapping [{ id := "aaa", sku := "XYZ", name := "Кран шаровой" }]
    [("77", { product_id := "zzz" })] none "0-77" "" { product_id := "zzz" }
    (by decide) (by decide)

/-! ## C9 -/

/-- C9: inside `match_order_items`, a mapping is auto-saved (with
`verified = false`) exactly when the match type is exact/cached, the
confidence reaches `confidence_exact_name`, a product id is present, the
client SKU is non-empty — and the upsert succeeds; an upsert failure is
swallowed (`auto_saved = false`) and the `MatchResult` handed back is the
unmodified `match_item` output either way. -/
theorem C9_auto_save (products : List Product)
    (mappings : List (String × MappingRow)) (llm : Option LlmMatcher)
    (upsert : SaveData → Bool) (client_id client_sku client_name : String)
    (m : MatchResult) (saved : Bool)
    (h : match_order_item products mappings llm upsert true client_id
      client_sku client_name = .ok (m, saved)) :
    match_item products mappings llm client_sku client_name = .ok m ∧
    (saved = true ↔ ∃ pid, m.product_id = some pid ∧ client_sku ≠ "" ∧
      confidence_exact_name ≤ m.confidence ∧
      (m.match_type = "exact_sku" ∨ m.match_type = "exact_name" ∨
        m.match_type = "cached_mapping") ∧
      upsert { client_id := client_id, client_sku := client_sku,
               product_id := pid, confidence := m.confidence,
               match_type := m.match_type, verified := false } = true) := by
  unfold match_order_item at h
  cases hm : match_item products mappings llm client_sku client_name with
  | error e =>
    rw [hm] at h
    simp [Except.bind] at h
  | ok m0 =>
    rw [hm] at h
    simp only [Except.bind, bind, pure, Except.pure] at h
    injection h with hpair
    rw [Prod.mk.injEq] at hpair
    obtain ⟨hm0, hsaved⟩ := hpair
    subst hm0
    refine ⟨rfl, ?_⟩
    rw [← hsaved]
    by_cases hsku : client_sku = ""
    · rw [if_neg (by simp [hsku])]
      constructor
      · intro hfalse
        cases hfalse
      · rintro ⟨pid, _, hne, _⟩
        exact absurd hsku hne
    · rw [if_pos (by simp [hsku])]
      unfold auto_save_high_confidence
      cases hpid : m0.product_id with
      | none =>
        constructor
        · intro hfalse
          cases hfalse
        · rintro ⟨pid, hpid2, _⟩
          cases hpid2
      | some pid =>
        dsimp only
        by_cases hcnd : confidence_exact_name ≤ m0.confidence ∧
            (m0.match_type = "exact_sku" ∨ m0.match_type = "exact_name" ∨
              m0.match_type = "cached_mapping")
        · rw [if_pos (by simp [hcnd.1]; tauto)]
          constructor
          · intro hup
            exact ⟨pid, rfl, hsku, hcnd.1, hcnd.2, hup⟩
          · rintro ⟨pid2, hpid2, _, _, _, hup⟩
            injection hpid2 with hpe
            rw [hpe]
            exact hup
        · rw [if_neg (by simp; tauto)]
          constructor
          · intro hfalse
            cases hfalse
          · rintro ⟨pid2, hpid2, _, hconf, htype, _⟩
            exact (hcnd ⟨hconf, htype⟩).elim

/-- Witness for C9: an exact-SKU match with a failing upsert — the save
is reported `false` and the returned match is unchanged. -/
theorem C9_witness :
    match_item [{ id := "p3", sku := "101932", name := "Муфта ППР 32" }] [] none "101932" "" =
      .ok (mkExactSku { id := "p3", sku := "101932", name := "Муфта ППР 32" }) ∧
    (false = true ↔ ∃ pid,
      (mkExactSku { id := "p3", sku := "101932", name := "Муфта ППР 32" }).product_id = some pid ∧
      ("101932" : String) ≠ "" ∧
      confidence_exact_name ≤ (mkExactSku { id := "p3", sku := "101932", name := "Муфта ППР 32" }).confidence ∧
      ((mkExactSku { id := "p3", sku := "101932", name := "Муфта ППР 32" }).match_type = "exact_sku" ∨
        (mkExactSku { id := "p3", sku := "101932", name := "Муфта ППР 32" }).match_type = "exact_name" ∨
        (mkExactSku { id := "p3", sku := "101932", name := "Муфта ППР 32" }).match_type = "cached_mapping") ∧
      (fun _ => false : SaveData → Bool)
        { client_id := "c1", client_sku := "101932", product_id := pid,
          confidence := (mkExactSku { id := "p3", sku := "101932", name := "Муфта ППР 32" }).confidence,
          match_type := (mkExactSku { id := "p3", sku := "101932", name := "Муфта ППР 32" }).match_type,
          verified := false } = true) :=
  C9_auto_save [{ id := "p3", sku := "101932", name := "Муфта ППР 32" }] []
    none (fun _ => false) "c1" "101932" ""
    (mkExactSku { id := "p3", sku := "101932", name := "Муфта ППР 32" })
    false (by rfl)

end PriceOrders

